import Mathlib

/-!
Verification development for the freeswitch_exporter sources.

The event-socket client (esl.py) and the Prometheus collectors
(collector.py) are shallowly embedded below.  The wire stream is a list
of characters; reading a frame, logging in, and running the collectors
are total functions over that stream returning values in an Except
monad whose error type mirrors the Python exceptions that can escape.
-/

/-- Byte/character strings of the wire protocol, modelled as char lists. -/
abbrev Str := List Char

/-- Errors that can escape the embedded code.  ESLHeaderError and
ESLProtocolError come from esl.py; the rest are Python built-ins raised
by dict lookups, int and float conversions, json.loads, attribute
access and asyncio readexactly. -/
inductive PyErr where
  | headerError
  | protocolError
  | keyError
  | valueError
  | typeError
  | attributeError
  | incompleteReadError
deriving DecidableEq, Repr

/-- Python whitespace characters recognised by str.strip. -/
def isWsC (c : Char) : Bool :=
  c = ' ' || c = '\t' || c = '\n' || c = '\r' || c = '\x0b' || c = '\x0c'

/-- str.lstrip over the default whitespace set. -/
def stripLeft (s : Str) : Str := s.dropWhile isWsC

/-- str.rstrip over the default whitespace set. -/
def stripRight (s : Str) : Str := (s.reverse.dropWhile isWsC).reverse

/-- Python str.strip. -/
def strip (s : Str) : Str := stripLeft (stripRight s)

/-- StreamReader.readline: everything up to and including the first
newline, or the whole remaining stream when no newline is present.
Returns the line and the rest of the stream. -/
def readline : Str → Str × Str
  | [] => ([], [])
  | c :: cs =>
    if c = '\n' then ([c], cs)
    else
      let p := readline cs
      (c :: p.1, p.2)

/-- Python str.split with a separator of a colon and maxsplit one:
the part before the first colon and the part after it, or none when the
string has no colon (in which case the tuple unpacking in esl.py raises
ValueError). -/
def splitFirstColon : Str → Option (Str × Str)
  | [] => none
  | c :: cs =>
    if c = ':' then some ([], cs)
    else (splitFirstColon cs).map (fun p => (c :: p.1, p.2))

/-- Association lookup with Python dict semantics for reads. -/
def alookup {α β : Type} [DecidableEq α] (k : α) : List (α × β) → Option β
  | [] => none
  | (k', v) :: r => if k' = k then some v else alookup k r

/-- Python dict assignment d[k] = v: replace in place, else append. -/
def dictInsert {α β : Type} [DecidableEq α] (k : α) (v : β) :
    List (α × β) → List (α × β)
  | [] => [(k, v)]
  | (k', v') :: r =>
    if k' = k then (k, v) :: r else (k', v') :: dictInsert k v r

/-- Header mapping produced by ESL._read_headers. -/
abbrev Headers := List (Str × Str)

/-- Numeric value of a decimal digit character. -/
def charToDigit (c : Char) : Nat := c.toNat - 48

/-- Decimal digit character for a value below ten. -/
def digitChar : Nat → Char
  | 0 => '0' | 1 => '1' | 2 => '2' | 3 => '3' | 4 => '4'
  | 5 => '5' | 6 => '6' | 7 => '7' | 8 => '8' | _ => '9'

/-- Big-endian decimal digits of a natural number, fuel-driven so that
the definition is structurally recursive and reduces in the kernel. -/
def natDigitsAux : Nat → Nat → Str → Str
  | 0, _, acc => acc
  | fuel + 1, n, acc =>
    if n < 10 then digitChar n :: acc
    else natDigitsAux fuel (n / 10) (digitChar (n % 10) :: acc)

/-- Decimal representation of a natural number, as Python str(n). -/
def natDigits (n : Nat) : Str := natDigitsAux (n + 1) n []

/-- Parse a nonempty all-digit string into a natural number. -/
def parseDigits (s : Str) : Option Nat :=
  if s = [] then none
  else if s.all Char.isDigit then
    some (s.foldl (fun a c => a * 10 + charToDigit c) 0)
  else none

/-- Python int() applied to a string: strip whitespace, optional sign,
then a nonempty run of digits; anything else raises ValueError (none). -/
def pyInt (s : Str) : Option Int :=
  match strip s with
  | [] => none
  | c :: ds =>
    if c = '-' then (parseDigits ds).map (fun m => -(m : Int))
    else if c = '+' then (parseDigits ds).map (fun m => (m : Int))
    else (parseDigits (c :: ds)).map (fun m => (m : Int))

/-- Python str.startswith. -/
def pyStartsWith (p s : Str) : Bool := s.take p.length = p

/-- ESL._read_headers, fuel-driven: read lines until a blank line,
failing with ESLHeaderError on end of stream or on a final line that
lacks its newline terminator; header lines are split on the first colon
and both sides stripped, accumulated with dict-assignment semantics. -/
def readHeadersAux : Nat → Headers → Str → Except PyErr (Headers × Str)
  | 0, _, _ => .error .headerError
  | fuel + 1, hs, s =>
    let line := (readline s).1
    let rest := (readline s).2
    if line = [] ∨ line.getLast? ≠ some '\n' then .error .headerError
    else if line = ['\n'] then .ok (hs, rest)
    else
      match splitFirstColon line with
      | none => .error .valueError
      | some (n, v) => readHeadersAux fuel (dictInsert (strip n) (strip v) hs) rest

/-- ESL._read_headers on a stream. -/
def readHeaders (s : Str) : Except PyErr (Headers × Str) :=
  readHeadersAux (s.length + 1) [] s

/-- ESL._read_body: when a Content-Length header is present, convert it
with int() and read exactly that many bytes (ValueError on a negative
size, IncompleteReadError when the stream is too short); otherwise the
body is empty. -/
def readBody (hs : Headers) (s : Str) : Except PyErr (Str × Str) :=
  match alookup ("Content-Length".data) hs with
  | none => .ok ([], s)
  | some v =>
    match pyInt v with
    | none => .error .valueError
    | some size =>
      if size < 0 then .error .valueError
      else if s.length < size.toNat then .error .incompleteReadError
      else .ok (s.take size.toNat, s.drop size.toNat)

/-- One framed message: headers then optional body; returns the header
mapping, the body, and the unread rest of the stream. -/
def readFrame (s : Str) : Except PyErr (Headers × Str × Str) := do
  let (hs, r1) ← readHeaders s
  let (body, r2) ← readBody hs r1
  .ok (hs, body, r2)

/-- Header-name and content-type constants used by esl.py. -/
def ctKey : Str := "Content-Type".data

def clKey : Str := "Content-Length".data

def rtKey : Str := "Reply-Text".data

def ctApi : Str := "api/response".data

def ctAuthReq : Str := "auth/request".data

def ctCmdReply : Str := "command/reply".data

def ctReject : Str := "text/rude-rejection".data

def rtAccepted : Str := "+OK accepted".data

/-- Python d[k] for the header dict: KeyError when absent. -/
def getHdr (hs : Headers) (k : Str) : Except PyErr Str :=
  match alookup k hs with
  | some v => .ok v
  | none => .error .keyError

/-- ESL.initialize: read one frame and require its Content-Type to be
auth/request, otherwise ESLProtocolError.  Returns the unread stream. -/
def eslInit (s : Str) : Except PyErr Str := do
  let (hs, _body, rest) ← readFrame s
  let ct ← getHdr hs ctKey
  if ct = ctAuthReq then .ok rest else .error .protocolError

/-- The branch logic of ESL.login applied to a parsed response frame:
true only for a command/reply whose Reply-Text is the accepted literal;
false for a text/rude-rejection (logged, not raised); ESLProtocolError
otherwise.  A missing header consulted on the taken path is a KeyError. -/
def loginHandle (hs : Headers) (_body : Str) : Except PyErr Bool :=
  getHdr hs ctKey >>= fun ct =>
  (if ct = ctCmdReply then
      getHdr hs rtKey >>= fun rt => pure (decide (rt = rtAccepted))
    else pure false) >>= fun ok1 =>
  if ok1 then .ok true
  else if ct = ctReject then .ok false
  else .error .protocolError

/-- ESL.login over the stream: read one frame, then decide. -/
def eslLogin (s : Str) : Except PyErr (Bool × Str) := do
  let (hs, body, rest) ← readFrame s
  let r ← loginHandle hs body
  .ok (r, rest)

/-- ESL.send over the stream: read one frame and require Content-Type
api/response (KeyError when the header is missing, ESLProtocolError on
any other type); returns headers, body and the unread stream. -/
def sendApi (s : Str) : Except PyErr (Headers × Str × Str) := do
  let (hs, body, rest) ← readFrame s
  let ct ← getHdr hs ctKey
  if ct = ctApi then .ok (hs, body, rest) else .error .protocolError

/-- JSON values as returned by Python json.loads (integers only; the
bodies this exporter consumes carry integer counters). -/
inductive Json where
  | null
  | jbool (b : Bool)
  | jnum (n : Int)
  | jstr (s : Str)
  | jarr (xs : List Json)
  | jobj (m : List (Str × Json))

/-- Whitespace accepted between JSON tokens. -/
def skipWs (s : Str) : Str :=
  s.dropWhile (fun c => c = ' ' || c = '\n' || c = '\t' || c = '\r')

/-- Opening and closing brace characters. -/
def lbrace : Char := Char.ofNat 123

def rbrace : Char := Char.ofNat 125

/-- Parsing mode of the single fuel-driven JSON parser. -/
inductive JMode where
  | value
  | items
  | members

/-- Result carried by the JSON parser in each mode. -/
inductive JRes where
  | v (j : Json)
  | list (xs : List Json)
  | mems (m : List (Str × Json))

/-- Fuel-driven JSON parser covering objects, arrays, strings without
escapes, integers, booleans and null; a single structurally recursive
function so that it reduces in the kernel. -/
def jP : Nat → JMode → Str → Option (JRes × Str)
  | 0, _, _ => none
  | fuel + 1, .value, s =>
    let t := skipWs s
    match t with
    | [] => none
    | c :: r =>
      if c = '"' then
        let content := r.takeWhile (fun d => d ≠ '"' && d ≠ '\\')
        match r.dropWhile (fun d => d ≠ '"' && d ≠ '\\') with
        | '"' :: r2 => some (.v (.jstr content), r2)
        | _ => none
      else if c = lbrace then
        match skipWs r with
        | d :: r2 =>
          if d = rbrace then some (.v (.jobj []), r2)
          else
            match jP fuel .members r with
            | some (.mems m, r3) => some (.v (.jobj m), r3)
            | _ => none
        | [] => none
      else if c = '[' then
        match skipWs r with
        | ']' :: r2 => some (.v (.jarr []), r2)
        | _ =>
          match jP fuel .items r with
          | some (.list xs, r3) => some (.v (.jarr xs), r3)
          | _ => none
      else if pyStartsWith ("true".data) t then some (.v (.jbool true), t.drop 4)
      else if pyStartsWith ("false".data) t then some (.v (.jbool false), t.drop 5)
      else if pyStartsWith ("null".data) t then some (.v .null, t.drop 4)
      else
        let (sgn, u) : Int × Str := if c = '-' then (-1, r) else (1, t)
        let ds := u.takeWhile Char.isDigit
        match parseDigits ds with
        | some n => some (.v (.jnum (sgn * n)), u.dropWhile Char.isDigit)
        | none => none
  | fuel + 1, .items, s =>
    match jP fuel .value s with
    | some (.v j, r) =>
      (match skipWs r with
       | ',' :: r2 =>
         match jP fuel .items r2 with
         | some (.list xs, r3) => some (.list (j :: xs), r3)
         | _ => none
       | ']' :: r2 => some (.list [j], r2)
       | _ => none)
    | _ => none
  | fuel + 1, .members, s =>
    match jP fuel .value s with
    | some (.v (.jstr k), r) =>
      (match skipWs r with
       | ':' :: r2 =>
         match jP fuel .value r2 with
         | some (.v j, r3) =>
           (match skipWs r3 with
            | ',' :: r4 =>
              match jP fuel .members r4 with
              | some (.mems m, r5) => some (.mems ((k, j) :: m), r5)
              | _ => none
            | d :: r4 =>
              if d = rbrace then some (.mems [(k, j)], r4) else none
            | [] => none)
         | _ => none
       | _ => none)
    | _ => none

/-- Python json.loads: parse one value and require only trailing
whitespace after it; failure is a JSONDecodeError, a ValueError. -/
def jsonLoads (s : Str) : Except PyErr Json :=
  match jP (2 * s.length + 4) .value s with
  | some (.v j, r) => if skipWs r = [] then .ok j else .error .valueError
  | _ => .error .valueError

/-- Python d.get(k, default) - only dicts have .get, anything else is an
AttributeError. -/
def pyGetD (j : Json) (k : Str) (d : Json) : Except PyErr Json :=
  match j with
  | .jobj m => .ok ((alookup k m).getD d)
  | _ => .error .attributeError

/-- Equality of a JSON value with a string, as Python ==. -/
def eqStrJ (k : Str) : Json → Bool
  | .jstr t => t = k
  | _ => false

/-- Python k in j for a string k: key test on dicts, element test on
lists, substring test on strings, TypeError otherwise. -/
def pyIn (k : Str) (j : Json) : Except PyErr Bool :=
  match j with
  | .jobj m => .ok (alookup k m).isSome
  | .jarr xs => .ok (xs.any (eqStrJ k))
  | .jstr s => .ok (decide (k <:+: s))
  | _ => .error .typeError

/-- Python j[k] for a string key: KeyError when a dict lacks the key,
TypeError on non-dict values. -/
def getItemJ (j : Json) (k : Str) : Except PyErr Json :=
  match j with
  | .jobj m =>
    match alookup k m with
    | some v => .ok v
    | none => .error .keyError
  | _ => .error .typeError

/-- Iteration over a JSON value as Python for-in: lists yield elements,
dicts yield their keys, strings yield one-character strings. -/
def pyIter (j : Json) : Except PyErr (List Json) :=
  match j with
  | .jarr xs => .ok xs
  | .jobj m => .ok (m.map (fun p => Json.jstr p.1))
  | .jstr s => .ok (s.map (fun c => Json.jstr [c]))
  | _ => .error .typeError

/-- Python multiplication of a JSON value by a positive int, as used
for the kilobyte conversion: numbers scale, booleans behave as ints,
strings and lists repeat; None and dicts are a TypeError. -/
def pyMulNat (j : Json) (n : Nat) : Except PyErr Json :=
  match j with
  | .jnum m => .ok (.jnum (m * n))
  | .jbool b => .ok (.jnum (if b then (n : Int) else 0))
  | .jstr s => .ok (.jstr ((List.replicate n s).flatten))
  | .jarr xs => .ok (.jarr ((List.replicate n xs).flatten))
  | _ => .error .typeError

/-- Unsigned decimal floats: digits with an optional fractional part. -/
def parseUFloat (t : Str) : Option ℚ :=
  let ip := t.takeWhile Char.isDigit
  let rest := t.dropWhile Char.isDigit
  let ipv : ℚ := ((ip.foldl (fun a c => a * 10 + charToDigit c) 0 : Nat) : ℚ)
  match rest with
  | [] => if ip = [] then none else some ipv
  | '.' :: frac =>
    if frac.all Char.isDigit ∧ (ip ≠ [] ∨ frac ≠ []) then
      some (ipv + ((frac.foldl (fun a c => a * 10 + charToDigit c) 0 : Nat) : ℚ) /
        ((10 : ℚ) ^ frac.length))
    else none
  | _ => none

/-- Python float() on a string: strip, optional sign, plain decimal. -/
def parseFloatQ (s : Str) : Option ℚ :=
  match strip s with
  | '-' :: t => (parseUFloat t).map Neg.neg
  | '+' :: t => parseUFloat t
  | t => parseUFloat t

/-- Python float() on a JSON value. -/
def pyFloat : Json → Except PyErr ℚ
  | .jnum n => .ok (n : ℚ)
  | .jbool b => .ok (if b then 1 else 0)
  | .jstr s =>
    match parseFloatQ s with
    | some q => .ok q
    | none => .error .valueError
  | _ => .error .typeError

/-- Value carried by one emitted metric sample: either the raw JSON
value the source passed to add_metric, or a float produced by the
millisecond-to-second conversion. -/
inductive PVal where
  | j (v : Json)
  | f (q : ℚ)

/-- One metric observation: the metric family it was added to, its
label values, and its value. -/
structure Obs where
  fam : String
  labels : List Json
  val : PVal

/-- Metric families of ESLProcessInfo.collect with their samples; the
session entries exist only when the sessions key was present. -/
structure ProcMetrics where
  info : List (List Json × Json)
  up : List (List Json × Json)
  mem : List (List Json × Json)
  sessions : List (String × Json)

/-- JSON keys consulted by the process-info collector. -/
def respKey : Str := "response".data

def verKey : Str := "version".data

def ssKey : Str := "systemStatus".data

def readyVal : Str := "ready".data

def skbKey : Str := "stackSizeKB".data

def curKey : Str := "current".data

def sessKey : Str := "sessions".data

def cntKey : Str := "count".data

/-- ESLProcessInfo.collect: one api status command, then metrics from
the optional fields of the JSON response object. -/
def processInfo (s : Str) : Except PyErr (ProcMetrics × Str) := do
  let (_, result, s1) ← sendApi s
  let lj ← jsonLoads result
  let response ← pyGetD lj respKey (Json.jobj [])
  let hasVer ← pyIn verKey response
  let info ←
    if hasVer then do
      let v ← getItemJ response verKey
      pure [([v], Json.jnum 1)]
    else pure []
  let hasSs ← pyIn ssKey response
  let up ←
    if hasSs then do
      let v ← getItemJ response ssKey
      pure [(([] : List Json), Json.jnum (if eqStrJ readyVal v then 1 else 0))]
    else pure []
  let hasSkb ← pyIn skbKey response
  let mem ←
    if hasSkb then do
      let v ← getItemJ response skbKey
      let cur ← pyGetD v curKey (Json.jnum 0)
      let m ← pyMulNat cur 1024
      pure [(([] : List Json), m)]
    else pure []
  let hasSess ← pyIn sessKey response
  let sessions ←
    if hasSess then do
      let sv ← getItemJ response sessKey
      (["total", "active", "limit"].mapM (fun mname => do
        let cnt ← pyGetD sv cntKey (Json.jobj [])
        let v ← pyGetD cnt mname.data (Json.jnum 0)
        pure (mname, v)))
    else pure []
  .ok (⟨info, up, mem, sessions⟩, s1)

/-- The channel-variable metric catalog of ESLChannelInfo.collect:
channel-variable name paired with the metric family it feeds. -/
def chanCatalog : List (Str × String) :=
  [ ("variable_rtp_audio_in_raw_bytes".data, "rtp_audio_in_raw_bytes_total"),
    ("variable_rtp_audio_out_raw_bytes".data, "rtp_audio_out_raw_bytes_total"),
    ("variable_rtp_audio_in_media_bytes".data, "rtp_audio_in_media_bytes_total"),
    ("variable_rtp_audio_out_media_bytes".data, "rtp_audio_out_media_bytes_total"),
    ("variable_rtp_audio_in_packet_count".data, "rtp_audio_in_packets_total"),
    ("variable_rtp_audio_out_packet_count".data, "rtp_audio_out_packets_total"),
    ("variable_rtp_audio_in_media_packet_count".data, "rtp_audio_in_media_packets_total"),
    ("variable_rtp_audio_out_media_packet_count".data, "rtp_audio_out_media_packets_total"),
    ("variable_rtp_audio_in_skip_packet_count".data, "rtp_audio_in_skip_packets_total"),
    ("variable_rtp_audio_out_skip_packet_count".data, "rtp_audio_out_skip_packets_total"),
    ("variable_rtp_audio_in_jitter_packet_count".data, "rtp_audio_in_jitter_packets_total"),
    ("variable_rtp_audio_in_dtmf_packet_count".data, "rtp_audio_in_dtmf_packets_total"),
    ("variable_rtp_audio_out_dtmf_packet_count".data, "rtp_audio_out_dtmf_packets_total"),
    ("variable_rtp_audio_in_cng_packet_count".data, "rtp_audio_in_cng_packets_total"),
    ("variable_rtp_audio_out_cng_packet_count".data, "rtp_audio_out_cng_packets_total"),
    ("variable_rtp_audio_in_flush_packet_count".data, "rtp_audio_in_flush_packets_total"),
    ("variable_rtp_audio_in_largest_jb_size".data, "rtp_audio_in_jitter_buffer_bytes_max"),
    ("variable_rtp_audio_in_jitter_min_variance".data, "rtp_audio_in_jitter_seconds_min"),
    ("variable_rtp_audio_in_jitter_max_variance".data, "rtp_audio_in_jitter_seconds_max"),
    ("variable_rtp_audio_in_jitter_loss_rate".data, "rtp_audio_in_jitter_loss_rate"),
    ("variable_rtp_audio_in_jitter_burst_rate".data, "rtp_audio_in_jitter_burst_rate"),
    ("variable_rtp_audio_in_mean_interval".data, "rtp_audio_in_mean_interval_seconds"),
    ("variable_rtp_audio_in_flaw_total".data, "rtp_audio_in_flaw_total"),
    ("variable_rtp_audio_in_quality_percentage".data, "rtp_audio_in_quality_percent"),
    ("variable_rtp_audio_in_mos".data, "rtp_audio_in_quality_mos"),
    ("variable_rtp_audio_rtcp_octet_count".data, "rtcp_audio_bytes_total"),
    ("variable_rtp_audio_rtcp_packet_count".data, "rtcp_audio_packets_total") ]

/-- The three channel variables converted from milliseconds to seconds. -/
def msKeys : List Str :=
  [ "variable_rtp_audio_in_jitter_min_variance".data,
    "variable_rtp_audio_in_jitter_max_variance".data,
    "variable_rtp_audio_in_mean_interval".data ]

/-- Family name of the per-channel info metric. -/
def infoFam : String := "rtp_channel_info"

/-- Row keys of the active-call listing. -/
def uuidKey : Str := "uuid".data

def nameKey : Str := "name".data

def rowsKey : Str := "rows".data

def uaKey : Str := "variable_sip_user_agent".data

def unknownVal : Str := "Unknown".data

/-- The error marker checked on a channel dump body. -/
def errMark : Str := "-ERR ".data

/-- Python dict .items() - an AttributeError on anything else. -/
def asObj (j : Json) : Except PyErr (List (Str × Json)) :=
  match j with
  | .jobj m => .ok m
  | _ => .error .attributeError

/-- Processing of one channel variable: a millisecond-class value is
float-converted and divided by 1000, then a variable present in the
catalog yields one observation labelled by the call uuid. -/
def varStep (uuid : Json) (kv : Str × Json) : Except PyErr (List Obs) :=
  (if kv.1 ∈ msKeys then do
      let q ← pyFloat kv.2
      pure (PVal.f (q / 1000))
    else pure (PVal.j kv.2)) >>= fun mv =>
  match alookup kv.1 chanCatalog with
  | some famName => pure [{ fam := famName, labels := [uuid], val := mv }]
  | none => pure []

/-- The channel-variable loop of ESLChannelInfo.collect. -/
def varsObs (uuid : Json) : List (Str × Json) → Except PyErr (List Obs)
  | [] => .ok []
  | kv :: rest => do
    let o ← varStep uuid kv
    let os ← varsObs uuid rest
    pure (o ++ os)

/-- The per-row loop of ESLChannelInfo.collect: for each listing row
read the uuid, issue the media-stats refresh and the channel dump
(each consuming one api/response frame), skip the row entirely when the
dump body starts with the error marker, otherwise parse the dump and
emit catalog observations plus one channel-info observation. -/
def chanLoop : List Json → Str → List Obs → Except PyErr (List Obs × Str)
  | [], s, acc => .ok (acc, s)
  | row :: rest, s, acc => do
    let uuid ← getItemJ row uuidKey
    let (_, _stats, s1) ← sendApi s
    let (_, dump, s2) ← sendApi s1
    if pyStartsWith errMark dump then
      chanLoop rest s2 acc
    else do
      let cv ← jsonLoads dump
      let vars ← asObj cv
      let obs ← varsObs uuid vars
      let nm ← getItemJ row nameKey
      let ua := (alookup uaKey vars).getD (Json.jstr unknownVal)
      chanLoop rest s2
        (acc ++ obs ++ [{ fam := infoFam, labels := [uuid, nm, ua],
                          val := PVal.j (Json.jnum 1) }])

/-- ESLChannelInfo.collect: the show-calls listing then the per-row
loop; the observations are returned in emission order. -/
def chanCollect (s : Str) : Except PyErr (List Obs × Str) := do
  let (_, result, s1) ← sendApi s
  let lj ← jsonLoads result
  let rowsJ ← pyGetD lj rowsKey (Json.jarr [])
  let rows ← pyIter rowsJ
  chanLoop rows s1 []

/-- Status record produced by the external sofia-status parser for one
profile (SofiaProfileStatus). -/
structure SofiaStatus where
  name : Str
  congestion : Int
  session_to : Int
  max_dialog : Int
  calls_in : Int
  failed_calls_in : Int
  calls_out : Int
  failed_calls_out : Int
  registrations : Int
deriving DecidableEq, Repr

/-- One appended gauge entry: the metric family name together with the
label value and number added to it. -/
abbrev SEntry := String × Str × Int

/-- The eight sofia gauge family names in the dict order of
ESLSofiaStatusCollector.collect. -/
def sofiaFamNames : List String :=
  [ "sofia_profile_congested_calls_total",
    "sofia_profile_session_timeout_total",
    "sofia_profile_maximum_sessions_configuration",
    "sofia_profile_calls_inbound_total",
    "sofia_profile_failed_inbound_calls_total",
    "sofia_profile_calls_outbound_total",
    "sofia_profile_failed_outbound_calls_total",
    "sofia_profile_registrations_total" ]

/-- The eight gauge entries appended for one profile status, in the
iteration order of the field dict. -/
def fieldsOf (st : SofiaStatus) : List SEntry :=
  [ ("sofia_profile_congested_calls_total", st.name, st.congestion),
    ("sofia_profile_session_timeout_total", st.name, st.session_to),
    ("sofia_profile_maximum_sessions_configuration", st.name, st.max_dialog),
    ("sofia_profile_calls_inbound_total", st.name, st.calls_in),
    ("sofia_profile_failed_inbound_calls_total", st.name, st.failed_calls_in),
    ("sofia_profile_calls_outbound_total", st.name, st.calls_out),
    ("sofia_profile_failed_outbound_calls_total", st.name, st.failed_calls_out),
    ("sofia_profile_registrations_total", st.name, st.registrations) ]

/-- The per-profile loop of ESLSofiaStatusCollector.collect: one status
command per profile name, parsed by the external parser, and all eight
family objects appended to the gauges list once per profile. -/
def sofiaLoop (ps : Str → Except PyErr SofiaStatus) :
    List Str → Str → List SEntry → Except PyErr (List SEntry × Str)
  | [], s, acc => .ok (acc, s)
  | _ :: rest, s, acc => do
    let (_, text, s1) ← sendApi s
    let st ← ps text
    sofiaLoop ps rest s1 (acc ++ fieldsOf st)

/-- ESLSofiaStatusCollector.collect, parameterised by the external
sofia_status parsers (profile_list_from_sofia_status and
SofiaProfileStatus), which are outside the embedded sources. -/
def sofiaCollect (pp : Str → Except PyErr (List Str))
    (ps : Str → Except PyErr SofiaStatus) (s : Str) :
    Except PyErr (List SEntry × Str) := do
  let (_, listing, s1) ← sendApi s
  let names ← pp listing
  sofiaLoop ps names s1 []

/-- All metric observations of one scrape. -/
structure ScrapeMetrics where
  proc : ProcMetrics
  chan : List Obs
  sofia : List SEntry

/-- The body of ChannelCollector._collect: initialize, login (whose
boolean result is discarded, exactly as in the source), then the three
sub-collectors in sequence over the same connection. -/
def scrapeBody (pp : Str → Except PyErr (List Str))
    (ps : Str → Except PyErr SofiaStatus) (s : Str) :
    Except PyErr ScrapeMetrics := do
  let s1 ← eslInit s
  let (_loggedIn, s2) ← eslLogin s1
  let (pm, s3) ← processInfo s2
  let (cm, s4) ← chanCollect s3
  let (sm, _s5) ← sofiaCollect pp ps s4
  .ok ⟨pm, cm, sm⟩

/-- ChannelCollector._collect with its try/finally: the result of the
body, successful or raising, together with the closed flag of the
connection, which the finally block always sets. -/
def scrape (pp : Str → Except PyErr (List Str))
    (ps : Str → Except PyErr SofiaStatus) (s : Str) :
    Except PyErr ScrapeMetrics × Bool :=
  match scrapeBody pp ps s with
  | .ok m => (.ok m, true)
  | .error e => (.error e, true)

/-- Whether an Except value is a success. -/
def isOkE {ε α : Type} : Except ε α → Bool
  | .ok _ => true
  | .error _ => false

/-- The exception classes declared in esl.py together with their base. -/
inductive ExcClass where
  | exceptionBase
  | eslError
  | eslHeaderError
  | eslProtocolError
deriving DecidableEq, Repr

/-- The superclass list of each class, innermost first, from the class
statements of esl.py: ESLError(Exception), ESLHeaderError(ESLError),
ESLProtocolError(ESLError). -/
def ancestorsOf : ExcClass → List ExcClass
  | .exceptionBase => []
  | .eslError => [.exceptionBase]
  | .eslHeaderError => [.eslError, .exceptionBase]
  | .eslProtocolError => [.eslError, .exceptionBase]

/-- Python issubclass. -/
def isSubclass (a b : ExcClass) : Bool := a = b || b ∈ ancestorsOf a

/-- Whether an except clause naming one class catches a raised value of
another: the raised class must be a subclass of the named one. -/
def catches (handler raised : ExcClass) : Bool := isSubclass raised handler

/-- Serialisation of one header line in the name-colon-space-value form. -/
def serializeHeaderLine (nv : Str × Str) : Str :=
  nv.1 ++ (": ".data) ++ nv.2 ++ ['\n']

/-- A header block: the header lines followed by the blank line. -/
def serializeHeaders (hs : List (Str × Str)) : Str :=
  (hs.map serializeHeaderLine).flatten ++ ['\n']

/-- A complete frame: header block then raw body bytes. -/
def serializeFrame (hs : List (Str × Str)) (body : Str) : Str :=
  serializeHeaders hs ++ body

/-- A well-formed header name for the round-trip statement: no newline,
no colon, already stripped. -/
def goodName (n : Str) : Prop := '\n' ∉ n ∧ ':' ∉ n ∧ strip n = n

/-- A well-formed header value: no newline, already stripped. -/
def goodValue (v : Str) : Prop := '\n' ∉ v ∧ strip v = v

instance (n : Str) : Decidable (goodName n) := by
  unfold goodName
  infer_instance

instance (v : Str) : Decidable (goodValue v) := by
  unfold goodValue
  infer_instance

/-- The headers of a synthetic api/response frame carrying a body. -/
def apiHeaders (b : Str) : Headers :=
  [(ctKey, ctApi), (clKey, natDigits b.length)]

/-- A synthetic api/response frame with a Content-Length body. -/
def mkApiFrame (b : Str) : Str := serializeFrame (apiHeaders b) b

/-- The bodyless api/response frame answering the media-stats refresh. -/
def statsReplyFrame : Str := serializeFrame [(ctKey, ctApi)] []

/-- One row of a synthetic channel scrape: the listing row and the body
answered to the channel dump command for that row. -/
structure RowCase where
  row : Json
  dump : Str

/-- The two frames the stream answers for one listing row. -/
def rowFrames (rc : RowCase) : Str := statsReplyFrame ++ mkApiFrame rc.dump

/-- The full stream of a channel scrape: the listing frame followed by
the two per-row frames for every row. -/
def mkChanStream (lb : Str) (cases : List RowCase) : Str :=
  mkApiFrame lb ++ (cases.map rowFrames).flatten

/-- The observations one listing row contributes, computed directly on
the row case: the uuid lookup, the error-marker skip, the dump parse,
the catalog loop and the channel-info observation, mirroring one
iteration of the source loop. -/
def rowObsE (rc : RowCase) : Except PyErr (List Obs) := do
  let uuid ← getItemJ rc.row uuidKey
  if pyStartsWith errMark rc.dump then pure []
  else do
    let cv ← jsonLoads rc.dump
    let vars ← asObj cv
    let obs ← varsObs uuid vars
    let nm ← getItemJ rc.row nameKey
    let ua := (alookup uaKey vars).getD (Json.jstr unknownVal)
    pure (obs ++ [{ fam := infoFam, labels := [uuid, nm, ua],
                    val := PVal.j (Json.jnum 1) }])

/-- The concatenated observations of a list of row cases. -/
def rowsObsE : List RowCase → Except PyErr (List Obs)
  | [] => .ok []
  | rc :: rest => do
    let o ← rowObsE rc
    let os ← rowsObsE rest
    pure (o ++ os)

/-- Number of channel-info observations in an observation list. -/
def countInfo (l : List Obs) : Nat :=
  (l.filter (fun o => o.fam == infoFam)).length

/-- Whether a row case is answered by an error dump body. -/
def isErrRow (rc : RowCase) : Bool := pyStartsWith errMark rc.dump

/-- The stream of a synthetic sofia scrape: the profile-listing frame
then one status frame per profile. -/
def mkSofiaStream (lb : Str) (bodies : List Str) : Str :=
  mkApiFrame lb ++ (bodies.map mkApiFrame).flatten

/-- Profile parser returning no profiles, for scrapes of a switch with
no sofia profiles. -/
def ppNil : Str → Except PyErr (List Str) := fun _ => .ok []

/-- Status parser that is never reached when no profiles are listed. -/
def psNil : Str → Except PyErr SofiaStatus := fun _ => .error .protocolError

/-- Profile parser returning two fixed profile names. -/
def ppTwo : Str → Except PyErr (List Str) :=
  fun _ => .ok ["internal".data, "external".data]

/-- Status parser echoing the status text as the profile name with
fixed counters. -/
def psOk : Str → Except PyErr SofiaStatus :=
  fun t => .ok ⟨t, 1, 2, 3, 4, 5, 6, 7, 8⟩

/-- The auth/request handshake frame. -/
def authReqFrame : Str := serializeFrame [(ctKey, ctAuthReq)] []

/-- A rude-rejection reply to the auth command. -/
def rejectFrame : Str :=
  serializeFrame [(ctKey, ctReject), (clKey, "6".data)] ("denied".data)

/-- A status body whose response object is empty. -/
def procBody : Str := "\x7b\"response\": \x7b\x7d\x7d".data

/-- A show-calls body with no rows. -/
def callsBody : Str := "\x7b\"rows\": []\x7d".data

/-- A profile-listing body; its content only matters to the parser. -/
def sofiaLB : Str := "ignored".data

/-- A complete scrape stream whose auth response is a rejection and
whose remaining frames answer the three collectors. -/
def c1Stream : Str :=
  authReqFrame ++ rejectFrame ++ mkApiFrame procBody ++ mkApiFrame callsBody ++
    mkApiFrame sofiaLB

/-- The c1Stream remainder after the handshake frame. -/
def c1s1 : Str :=
  rejectFrame ++ mkApiFrame procBody ++ mkApiFrame callsBody ++ mkApiFrame sofiaLB

/-- The c1Stream remainder after the login frame. -/
def c1s2 : Str :=
  mkApiFrame procBody ++ mkApiFrame callsBody ++ mkApiFrame sofiaLB

/-- A call listing whose single row is an empty object: no uuid key. -/
def lbBad : Str := "\x7b\"rows\": [\x7b\x7d]\x7d".data

/-- A channel scrape stream whose listing row lacks the uuid key. -/
def c3Stream : Str := mkApiFrame lbBad

/-- First witness row: uuid and name present. -/
def row1 : Json :=
  Json.jobj [(uuidKey, Json.jstr ("u1".data)), (nameKey, Json.jstr ("c1".data))]

/-- Second witness row: uuid only. -/
def row2 : Json := Json.jobj [(uuidKey, Json.jstr ("u2".data))]

/-- Listing body describing row1 and row2. -/
def lb0 : Str :=
  "\x7b\"rows\": [\x7b\"uuid\": \"u1\", \"name\": \"c1\"\x7d, \x7b\"uuid\": \"u2\"\x7d]\x7d".data

/-- Witness row cases: the first row dumps an empty variable object,
the second is answered by an error body. -/
def cases0 : List RowCase :=
  [⟨row1, "\x7b\x7d".data⟩, ⟨row2, "-ERR gone".data⟩]

/-- The observations expected from cases0. -/
def cases0Obs : List Obs :=
  [⟨infoFam, [Json.jstr ("u1".data), Json.jstr ("c1".data),
    Json.jstr unknownVal], PVal.j (Json.jnum 1)⟩]

/-- A login stream answering with a rude rejection. -/
def c5Stream : Str := rejectFrame

/-- A process-info stream whose status body is an empty JSON object. -/
def c6Stream : Str := mkApiFrame ("\x7b\x7d".data)

/-- Process metrics with no samples and no session families. -/
def pmEmpty : ProcMetrics := ⟨[], [], [], []⟩

/-- Witness headers for the frame round trip. -/
def hs7 : List (Str × Str) :=
  [("X-A".data, "1".data), (clKey, "7".data)]

/-- Witness body containing an embedded blank line. -/
def body7 : Str := "ab\n\ncde".data

/-- Witness header lines of a stream that is cut off. -/
def pre8 : List (Str × Str) := [("A".data, "b".data)]

/-- Witness final fragment lacking its line terminator. -/
def frag8 : Str := "Oops".data

/-- Witness sofia status bodies, one per profile of ppTwo. -/
def sofiaBodies : List Str := ["s1".data, "s2".data]

/-- The statuses psOk produces for sofiaBodies. -/
def sofiaSts : List SofiaStatus :=
  [⟨"s1".data, 1, 2, 3, 4, 5, 6, 7, 8⟩, ⟨"s2".data, 1, 2, 3, 4, 5, 6, 7, 8⟩]

/-! ### Basic facts about stripping, lines and digit strings -/

theorem dropWhile_len_le (p : Char → Bool) (s : Str) :
    (s.dropWhile p).length ≤ s.length :=
  (List.dropWhile_suffix p).length_le

theorem dropWhile_eq_self_of_len {p : Char → Bool} :
    ∀ {l : Str}, (l.dropWhile p).length = l.length → l.dropWhile p = l := by
  intro l h
  cases l with
  | nil => simp
  | cons a t =>
    rw [List.dropWhile_cons] at h ⊢
    by_cases hp : p a = true
    · rw [if_pos hp] at h
      have h2 := dropWhile_len_le p t
      rw [List.length_cons] at h
      omega
    · rw [if_neg hp]

theorem dropWhile_head_false {p : Char → Bool} {a : Char} {t : Str}
    (h : (a :: t).dropWhile p = a :: t) : p a = false := by
  by_contra hc
  have hpa : p a = true := by revert hc; cases p a <;> simp
  rw [List.dropWhile_cons, if_pos hpa] at h
  have h1 := dropWhile_len_le p t
  rw [h, List.length_cons] at h1
  omega

theorem dropWhile_eq_self_of_forall {p : Char → Bool} :
    ∀ {l : Str}, (∀ c ∈ l, p c = false) → l.dropWhile p = l := by
  intro l h
  cases l with
  | nil => simp
  | cons a t =>
    rw [List.dropWhile_cons, if_neg (by simp [h a (List.mem_cons_self a t)])]

theorem strip_of_all_not_ws {s : Str} (h : ∀ c ∈ s, isWsC c = false) :
    strip s = s := by
  have h1 : stripRight s = s := by
    unfold stripRight
    rw [dropWhile_eq_self_of_forall (fun c hc => h c (by simpa using hc))]
    simp
  unfold strip
  rw [h1]
  exact dropWhile_eq_self_of_forall h

theorem strip_parts {v : Str} (h : strip v = v) :
    stripLeft v = v ∧ stripRight v = v := by
  have hsr : (stripRight v).length ≤ v.length := by
    unfold stripRight
    simpa using dropWhile_len_le isWsC v.reverse
  have hsl : (stripLeft (stripRight v)).length ≤ (stripRight v).length :=
    dropWhile_len_le isWsC (stripRight v)
  have hlen : v.length = (stripLeft (stripRight v)).length := by
    conv_lhs => rw [← h, strip]
  have h2 : (stripRight v).length = v.length := by omega
  have h3 : stripRight v = v := by
    unfold stripRight at h2 ⊢
    have h4 : (v.reverse.dropWhile isWsC).length = v.reverse.length := by
      simpa using h2
    rw [dropWhile_eq_self_of_len h4]
    simp
  refine ⟨?_, h3⟩
  have h5 := h
  rwa [strip, h3] at h5

theorem stripRight_concat_ws {c : Char} (hc : isWsC c = true) (s : Str) :
    stripRight (s ++ [c]) = stripRight s := by
  unfold stripRight
  rw [List.reverse_append]
  simp [List.dropWhile_cons, hc]

theorem strip_sandwich {v : Str} (h : strip v = v) :
    strip (' ' :: (v ++ ['\n'])) = v := by
  obtain ⟨hL, hR⟩ := strip_parts h
  have he : (' ' :: (v ++ ['\n'])) = ((' ' :: v) ++ ['\n']) := by simp
  rw [he, strip, stripRight_concat_ws (by decide)]
  cases v with
  | nil => decide
  | cons a t =>
    have hrv : ((a :: t).reverse.dropWhile isWsC) = (a :: t).reverse := by
      have h6 : ((a :: t).reverse.dropWhile isWsC).reverse = a :: t := hR
      calc (a :: t).reverse.dropWhile isWsC
        = (((a :: t).reverse.dropWhile isWsC).reverse).reverse := by simp
      _ = (a :: t).reverse := by rw [h6]
    obtain ⟨b, t', hb⟩ : ∃ b t', (a :: t).reverse = b :: t' := by
      cases hx : (a :: t).reverse with
      | nil => exact absurd (congrArg List.length hx) (by simp)
      | cons b t' => exact ⟨b, t', rfl⟩
    have hbws : isWsC b = false := by
      apply dropWhile_head_false (p := isWsC)
      rw [← hb]
      exact hrv
    have hsr : stripRight (' ' :: a :: t) = ' ' :: a :: t := by
      unfold stripRight
      have hrev : (' ' :: a :: t).reverse = b :: (t' ++ [' ']) := by
        rw [List.reverse_cons, hb]
        simp
      rw [hrev, List.dropWhile_cons, if_neg (by simp [hbws]), ← hrev]
      simp
    rw [hsr]
    unfold stripLeft
    rw [List.dropWhile_cons, if_pos (by decide)]
    exact hL

theorem readline_append {l : Str} (r : Str) (h : '\n' ∉ l) :
    readline (l ++ '\n' :: r) = (l ++ ['\n'], r) := by
  induction l with
  | nil => simp [readline]
  | cons c cs ih =>
    have hc : ¬c = '\n' := fun e => h (e ▸ List.mem_cons_self c cs)
    simp only [List.cons_append, readline, if_neg hc, List.append_eq,
      ih (fun m => h (List.mem_cons_of_mem c m))]

theorem readline_no_nl {s : Str} (h : '\n' ∉ s) : readline s = (s, []) := by
  induction s with
  | nil => rfl
  | cons c cs ih =>
    have hc : ¬c = '\n' := fun e => h (e ▸ List.mem_cons_self c cs)
    simp only [readline, if_neg hc, ih (fun m => h (List.mem_cons_of_mem c m))]

theorem splitFirstColon_append {n : Str} (t : Str) (h : ':' ∉ n) :
    splitFirstColon (n ++ ':' :: t) = some (n, t) := by
  induction n with
  | nil => simp [splitFirstColon]
  | cons c cs ih =>
    have hc : ¬c = ':' := fun e => h (e ▸ List.mem_cons_self c cs)
    simp only [List.cons_append, splitFirstColon, if_neg hc, List.append_eq,
      ih (fun m => h (List.mem_cons_of_mem c m)), Option.map_some']

theorem splitFirstColon_isSome {l : Str} (h : ':' ∈ l) :
    (splitFirstColon l).isSome = true := by
  induction l with
  | nil => cases h
  | cons c cs ih =>
    by_cases hc : c = ':'
    · simp [splitFirstColon, hc]
    · have hm : ':' ∈ cs := by
        cases List.mem_cons.mp h with
        | inl e => exact absurd e.symm hc
        | inr m => exact m
      simp only [splitFirstColon, if_neg hc]
      cases he : splitFirstColon cs with
      | none => rw [he] at ih; exact absurd (ih hm) (by simp)
      | some p => simp

theorem dictInsert_append {k : Str} {v : Str} :
    ∀ {acc : Headers}, k ∉ acc.map Prod.fst →
      dictInsert k v acc = acc ++ [(k, v)] := by
  intro acc h
  induction acc with
  | nil => rfl
  | cons p r ih =>
    obtain ⟨k', v'⟩ := p
    have hk : ¬k' = k := by
      intro e
      exact h (by simp [← e])
    simp only [dictInsert, if_neg hk, List.cons_append, List.cons.injEq, true_and]
    exact ih (fun m => h (by simp at m ⊢; exact Or.inr m))

theorem digitChar_isDigit {d : Nat} (h : d < 10) : (digitChar d).isDigit = true := by
  interval_cases d <;> decide

theorem charToDigit_digitChar {d : Nat} (h : d < 10) :
    charToDigit (digitChar d) = d := by
  interval_cases d <;> decide

theorem ws_not_digit : ∀ c : Char, isWsC c = true → c.isDigit = false := by
  intro c h
  simp only [isWsC, Bool.or_eq_true, decide_eq_true_eq] at h
  rcases h with ((((h | h) | h) | h) | h) | h <;> subst h <;> decide

theorem isDigit_not_ws {c : Char} (h : c.isDigit = true) : isWsC c = false := by
  cases hw : isWsC c
  · rfl
  · rw [ws_not_digit c hw] at h
    cases h

theorem not_mem_of_all_digit {s : Str} (h : ∀ c ∈ s, c.isDigit = true)
    {x : Char} (hx : x.isDigit = false) : x ∉ s := by
  intro hm
  rw [h x hm] at hx
  cases hx

theorem natDigitsAux_all_digit :
    ∀ fuel n acc, n < fuel → (∀ c ∈ acc, c.isDigit = true) →
      ∀ c ∈ natDigitsAux fuel n acc, c.isDigit = true := by
  intro fuel
  induction fuel with
  | zero => intro n acc h; omega
  | succ f ih =>
    intro n acc hn hacc c hc
    unfold natDigitsAux at hc
    by_cases h10 : n < 10
    · rw [if_pos h10] at hc
      cases List.mem_cons.mp hc with
      | inl e => exact e ▸ digitChar_isDigit h10
      | inr m => exact hacc c m
    · rw [if_neg h10] at hc
      have hd : n / 10 < n := Nat.div_lt_self (by omega) (by omega)
      refine ih (n / 10) _ (by omega) ?_ c hc
      intro d hd2
      cases List.mem_cons.mp hd2 with
      | inl e => exact e ▸ digitChar_isDigit (Nat.mod_lt n (by omega))
      | inr m => exact hacc d m

theorem natDigits_all_digit (n : Nat) : ∀ c ∈ natDigits n, c.isDigit = true :=
  natDigitsAux_all_digit (n + 1) n [] (by omega) (by simp)

theorem natDigitsAux_len :
    ∀ fuel n acc, n < fuel → acc.length < (natDigitsAux fuel n acc).length := by
  intro fuel
  induction fuel with
  | zero => intro n acc h; omega
  | succ f ih =>
    intro n acc hn
    unfold natDigitsAux
    by_cases h10 : n < 10
    · rw [if_pos h10]; simp
    · rw [if_neg h10]
      have hd : n / 10 < n := Nat.div_lt_self (by omega) (by omega)
      have := ih (n / 10) (digitChar (n % 10) :: acc) (by omega)
      simp only [List.length_cons] at this
      omega

theorem natDigits_ne_nil (n : Nat) : natDigits n ≠ [] := by
  have h1 := natDigitsAux_len (n + 1) n [] (by omega)
  intro h
  unfold natDigits at h
  rw [h] at h1
  simp at h1

theorem natDigitsAux_fuel :
    ∀ f1 f2 n acc, n < f1 → n < f2 →
      natDigitsAux f1 n acc = natDigitsAux f2 n acc := by
  intro f1
  induction f1 with
  | zero => intro f2 n acc h; omega
  | succ f ih =>
    intro f2 n acc h1 h2
    cases f2 with
    | zero => omega
    | succ g =>
      unfold natDigitsAux
      by_cases h10 : n < 10
      · rw [if_pos h10, if_pos h10]
      · rw [if_neg h10, if_neg h10]
        have hd : n / 10 < n := Nat.div_lt_self (by omega) (by omega)
        exact ih g (n / 10) _ (by omega) (by omega)

theorem natDigitsAux_acc :
    ∀ fuel n acc, n < fuel → natDigitsAux fuel n acc = natDigits n ++ acc := by
  intro fuel
  induction fuel with
  | zero => intro n acc h; omega
  | succ f ih =>
    intro n acc hn
    unfold natDigitsAux
    by_cases h10 : n < 10
    · rw [if_pos h10]
      have : natDigits n = [digitChar n] := by
        unfold natDigits natDigitsAux
        rw [if_pos h10]
      rw [this]
      rfl
    · rw [if_neg h10]
      have hd : n / 10 < n := Nat.div_lt_self (by omega) (by omega)
      have hrec : natDigits n = natDigits (n / 10) ++ [digitChar (n % 10)] := by
        unfold natDigits
        conv_lhs => rw [show n + 1 = (n : Nat) + 1 from rfl]
        unfold natDigitsAux
        rw [if_neg h10]
        rw [natDigitsAux_fuel n (n / 10 + 1) (n / 10) _ (by omega) (by omega)]
        exact ih (n / 10) [digitChar (n % 10)] (by omega) ▸
          natDigitsAux_fuel (n / 10 + 1) f (n / 10) _ (by omega) (by omega) ▸ rfl
      rw [ih (n / 10) (digitChar (n % 10) :: acc) (by omega), hrec]
      simp

theorem natDigits_foldl :
    ∀ fuel n, n < fuel → ∀ a : Nat,
      List.foldl (fun a c => a * 10 + charToDigit c) a (natDigits n) =
        a * 10 ^ (natDigits n).length + n := by
  intro fuel
  induction fuel with
  | zero => intro n h; omega
  | succ f ih =>
    intro n hn a
    by_cases h10 : n < 10
    · have h1 : natDigits n = [digitChar n] := by
        unfold natDigits natDigitsAux
        rw [if_pos h10]
      rw [h1]
      simp [charToDigit_digitChar h10]
    · have hd : n / 10 < n := Nat.div_lt_self (by omega) (by omega)
      have hrec : natDigits n = natDigits (n / 10) ++ [digitChar (n % 10)] := by
        unfold natDigits
        conv_lhs => rw [show (natDigitsAux (n + 1) n []) =
          natDigitsAux (n + 1) n [] from rfl]
        unfold natDigitsAux
        rw [if_neg h10]
        exact natDigitsAux_acc n (n / 10) [digitChar (n % 10)] (by omega)
      rw [hrec, List.foldl_append]
      have hih := ih (n / 10) (by omega) a
      rw [hih]
      simp only [List.foldl_cons, List.foldl_nil, List.length_append,
        List.length_cons, List.length_nil]
      rw [charToDigit_digitChar (Nat.mod_lt n (by omega))]
      have hp : 10 ^ ((natDigits (n / 10)).length + (0 + 1)) =
          10 ^ (natDigits (n / 10)).length * 10 := by
        rw [Nat.zero_add, pow_succ]
      rw [hp]
      have hdm : 10 * (n / 10) + n % 10 = n := Nat.div_add_mod n 10
      ring_nf
      omega

theorem parseDigits_natDigits (n : Nat) : parseDigits (natDigits n) = some n := by
  unfold parseDigits
  rw [if_neg (natDigits_ne_nil n)]
  rw [if_pos (List.all_eq_true.mpr (fun c hc => natDigits_all_digit n c hc))]
  rw [natDigits_foldl (n + 1) n (by omega) 0]
  simp

theorem natDigits_no_ws (n : Nat) : ∀ c ∈ natDigits n, isWsC c = false :=
  fun c hc => isDigit_not_ws (natDigits_all_digit n c hc)

theorem natDigits_strip (n : Nat) : strip (natDigits n) = natDigits n :=
  strip_of_all_not_ws (natDigits_no_ws n)

theorem natDigits_no_nl (n : Nat) : '\n' ∉ natDigits n :=
  not_mem_of_all_digit (natDigits_all_digit n) (by decide)

theorem natDigits_no_colon (n : Nat) : ':' ∉ natDigits n :=
  not_mem_of_all_digit (natDigits_all_digit n) (by decide)

theorem pyInt_natDigits (n : Nat) : pyInt (natDigits n) = some (n : Int) := by
  unfold pyInt
  rw [natDigits_strip n]
  cases hnd : natDigits n with
  | nil => exact absurd hnd (natDigits_ne_nil n)
  | cons c t =>
    have hcd : c.isDigit = true := by
      apply natDigits_all_digit n
      rw [hnd]
      exact List.mem_cons_self c t
    have hm : ¬c = '-' := fun e => by rw [e] at hcd; cases hcd
    have hp : ¬c = '+' := fun e => by rw [e] at hcd; cases hcd
    simp only [if_neg hm, if_neg hp]
    rw [← hnd, parseDigits_natDigits n]
    rfl

/-- A well-formed header value for the frame round trip. -/
theorem goodValue_natDigits (n : Nat) : goodValue (natDigits n) :=
  ⟨natDigits_no_nl n, natDigits_strip n⟩

/-! ### Frame serialisation round trip -/

theorem line_decomp (n v : Str) (rest : Str) :
    serializeHeaderLine (n, v) ++ rest = (n ++ ':' :: ' ' :: v) ++ '\n' :: rest := by
  have h1 : (": ".data) = [':', ' '] := rfl
  simp [serializeHeaderLine, h1]

theorem no_nl_core {n v : Str} (hn : '\n' ∉ n) (hv : '\n' ∉ v) :
    '\n' ∉ (n ++ ':' :: ' ' :: v) := by
  intro h
  simp only [List.mem_append, List.mem_cons] at h
  rcases h with h | h | h | h
  · exact hn h
  · cases h
  · cases h
  · exact hv h

theorem rha_ser_step {fuel : Nat} {hs0 : Headers} {n v : Str} (rest : Str)
    (hgn : goodName n) (hgv : goodValue v) :
    readHeadersAux (fuel + 1) hs0 (serializeHeaderLine (n, v) ++ rest) =
      readHeadersAux fuel (dictInsert n v hs0) rest := by
  obtain ⟨hn_nl, hn_col, hn_strip⟩ := hgn
  obtain ⟨hv_nl, hv_strip⟩ := hgv
  have hread : readline (serializeHeaderLine (n, v) ++ rest) =
      ((n ++ ':' :: ' ' :: v) ++ ['\n'], rest) := by
    rw [line_decomp]
    exact readline_append rest (no_nl_core hn_nl hv_nl)
  have hne : ((n ++ ':' :: ' ' :: v) ++ ['\n']) ≠ [] := by simp
  have hlast : ((n ++ ':' :: ' ' :: v) ++ ['\n']).getLast? = some '\n' :=
    List.getLast?_concat _
  have hnotblank : ((n ++ ':' :: ' ' :: v) ++ ['\n']) ≠ ['\n'] := by
    intro h
    have h2 := congrArg List.length h
    simp at h2
    omega
  have hsplit : splitFirstColon ((n ++ ':' :: ' ' :: v) ++ ['\n']) =
      some (n, ' ' :: (v ++ ['\n'])) := by
    have h3 : (n ++ ':' :: ' ' :: v) ++ ['\n'] = n ++ ':' :: (' ' :: (v ++ ['\n'])) := by
      simp
    rw [h3]
    exact splitFirstColon_append _ hn_col
  conv_lhs => unfold readHeadersAux
  rw [hread]
  simp only
  rw [if_neg (by push_neg; exact ⟨hne, by rw [hlast]⟩), if_neg hnotblank, hsplit]
  simp only
  rw [hn_strip, strip_sandwich hv_strip]

theorem rha_trunc_step {fuel : Nat} (hs0 : Headers) {n v : Str} (rest : Str)
    (hn_nl : '\n' ∉ n) (hv_nl : '\n' ∉ v) :
    ∃ hs1, readHeadersAux (fuel + 1) hs0 (serializeHeaderLine (n, v) ++ rest) =
      readHeadersAux fuel hs1 rest := by
  have hread : readline (serializeHeaderLine (n, v) ++ rest) =
      ((n ++ ':' :: ' ' :: v) ++ ['\n'], rest) := by
    rw [line_decomp]
    exact readline_append rest (no_nl_core hn_nl hv_nl)
  have hne : ((n ++ ':' :: ' ' :: v) ++ ['\n']) ≠ [] := by simp
  have hlast : ((n ++ ':' :: ' ' :: v) ++ ['\n']).getLast? = some '\n' :=
    List.getLast?_concat _
  have hnotblank : ((n ++ ':' :: ' ' :: v) ++ ['\n']) ≠ ['\n'] := by
    intro h
    have h2 := congrArg List.length h
    simp at h2
    omega
  have hcolmem : ':' ∈ ((n ++ ':' :: ' ' :: v) ++ ['\n']) := by simp
  obtain ⟨p, hp⟩ := Option.isSome_iff_exists.mp (splitFirstColon_isSome hcolmem)
  obtain ⟨a, b⟩ := p
  refine ⟨dictInsert (strip a) (strip b) hs0, ?_⟩
  conv_lhs => unfold readHeadersAux
  rw [hread]
  simp only
  rw [if_neg (by push_neg; exact ⟨hne, by rw [hlast]⟩), if_neg hnotblank, hp]

theorem lines_len_ge (hs : List (Str × Str)) :
    hs.length ≤ ((hs.map serializeHeaderLine).flatten).length := by
  induction hs with
  | nil => simp
  | cons p rest ih =>
    simp only [List.map_cons, List.flatten_cons, List.length_append]
    have h1 : 1 ≤ (serializeHeaderLine p).length := by
      obtain ⟨n, v⟩ := p
      simp only [serializeHeaderLine, List.length_append, List.length_cons,
        List.length_nil]
      omega
    simp only [List.length_cons]
    omega

theorem rha_ser :
    ∀ (hs : List (Str × Str)) (fuel : Nat) (acc : Headers) (tail : Str),
      hs.length < fuel →
      (∀ p ∈ hs, goodName p.1 ∧ goodValue p.2) →
      (∀ p ∈ hs, p.1 ∉ acc.map Prod.fst) →
      (hs.map Prod.fst).Nodup →
      readHeadersAux fuel acc ((hs.map serializeHeaderLine).flatten ++ '\n' :: tail) =
        .ok (acc ++ hs, tail) := by
  intro hs
  induction hs with
  | nil =>
    intro fuel acc tail hfuel _ _ _
    cases fuel with
    | zero => omega
    | succ f =>
      conv_lhs => unfold readHeadersAux
      have hread : readline ((([] : List (Str × Str)).map serializeHeaderLine).flatten
          ++ '\n' :: tail) = (['\n'], tail) := by
        simp only [List.map_nil, List.flatten_nil, List.nil_append]
        simp [readline]
      rw [hread]
      simp
  | cons p rest ih =>
    intro fuel acc tail hfuel hgood hdisj hnodup
    cases fuel with
    | zero => omega
    | succ f =>
      obtain ⟨n, v⟩ := p
      have hg := hgood (n, v) (List.mem_cons_self _ _)
      have hstream : (((n, v) :: rest).map serializeHeaderLine).flatten ++ '\n' :: tail =
          serializeHeaderLine (n, v) ++
            ((rest.map serializeHeaderLine).flatten ++ '\n' :: tail) := by
        simp
      rw [hstream, rha_ser_step _ hg.1 hg.2]
      have hn_notin : n ∉ acc.map Prod.fst := hdisj (n, v) (List.mem_cons_self _ _)
      rw [dictInsert_append hn_notin]
      have hnd : (n :: rest.map Prod.fst).Nodup := by simpa using hnodup
      have hnd2 := List.nodup_cons.mp hnd
      have hf2 : rest.length < f := by
        simp only [List.length_cons] at hfuel
        omega
      have hgood2 : ∀ q ∈ rest, goodName q.1 ∧ goodValue q.2 :=
        fun q hq => hgood q (List.mem_cons_of_mem _ hq)
      have hdisj2 : ∀ q ∈ rest, q.1 ∉ (acc ++ [(n, v)]).map Prod.fst := by
        intro q hq
        simp only [List.map_append, List.mem_append]
        rintro (h1 | h2)
        · exact hdisj q (List.mem_cons_of_mem _ hq) h1
        · have hqn : q.1 = n := by simpa using h2
          apply hnd2.1
          rw [← hqn]
          exact List.mem_map_of_mem Prod.fst hq
      rw [ih f (acc ++ [(n, v)]) tail hf2 hgood2 hdisj2 hnd2.2]
      simp

theorem readHeaders_ser (hs : List (Str × Str)) (tail : Str)
    (hgood : ∀ p ∈ hs, goodName p.1 ∧ goodValue p.2)
    (hnodup : (hs.map Prod.fst).Nodup) :
    readHeaders (serializeHeaders hs ++ tail) = .ok (hs, tail) := by
  unfold readHeaders
  have hrw : serializeHeaders hs ++ tail =
      (hs.map serializeHeaderLine).flatten ++ '\n' :: tail := by
    simp [serializeHeaders]
  rw [hrw]
  have hlen : hs.length < ((hs.map serializeHeaderLine).flatten ++ '\n' :: tail).length + 1 := by
    have := lines_len_ge hs
    simp only [List.length_append, List.length_cons]
    omega
  rw [rha_ser hs _ [] tail hlen hgood (by simp) hnodup]
  simp

theorem readBody_ser (hs : Headers) (body extra : Str)
    (hcl : match alookup ("Content-Length".data) hs with
           | some v => pyInt v = some (Int.ofNat body.length)
           | none => body = []) :
    readBody hs (body ++ extra) = .ok (body, extra) := by
  cases hv : alookup ("Content-Length".data) hs with
  | none =>
    rw [hv] at hcl
    simp only at hcl
    subst hcl
    simp [readBody, hv]
  | some v =>
    rw [hv] at hcl
    simp only at hcl
    simp only [readBody, hv, hcl]
    rw [if_neg (by simp only [Int.ofNat_eq_natCast]; omega)]
    have ht : (Int.ofNat body.length).toNat = body.length := rfl
    rw [ht, if_neg (by simp only [List.length_append]; omega)]
    rw [List.take_left, List.drop_left]

theorem readFrame_ser (hs : List (Str × Str)) (body extra : Str)
    (hgood : ∀ p ∈ hs, goodName p.1 ∧ goodValue p.2)
    (hnodup : (hs.map Prod.fst).Nodup)
    (hcl : match alookup ("Content-Length".data) hs with
           | some v => pyInt v = some (Int.ofNat body.length)
           | none => body = []) :
    readFrame (serializeFrame hs body ++ extra) = .ok (hs, body, extra) := by
  unfold readFrame
  have h1 : serializeFrame hs body ++ extra = serializeHeaders hs ++ (body ++ extra) := by
    simp [serializeFrame]
  rw [h1, readHeaders_ser hs (body ++ extra) hgood hnodup]
  show (readBody hs (body ++ extra)).bind _ = _
  rw [readBody_ser hs body extra hcl]
  rfl

theorem rha_trunc :
    ∀ (pre : List (Str × Str)) (fuel : Nat) (acc : Headers) (frag : Str),
      pre.length < fuel →
      (∀ p ∈ pre, '\n' ∉ p.1 ∧ '\n' ∉ p.2) →
      '\n' ∉ frag →
      readHeadersAux fuel acc ((pre.map serializeHeaderLine).flatten ++ frag) =
        .error .headerError := by
  intro pre
  induction pre with
  | nil =>
    intro fuel acc frag hfuel _ hfrag
    cases fuel with
    | zero => omega
    | succ f =>
      conv_lhs => unfold readHeadersAux
      have hread : readline ((([] : List (Str × Str)).map serializeHeaderLine).flatten
          ++ frag) = (frag, []) := by
        simp only [List.map_nil, List.flatten_nil, List.nil_append]
        exact readline_no_nl hfrag
      rw [hread]
      simp only
      cases frag with
      | nil => rw [if_pos (Or.inl rfl)]
      | cons c cs =>
        rw [if_pos]
        right
        rw [List.getLast?_eq_getLast (c :: cs) (by simp)]
        intro h
        have h2 : (c :: cs).getLast (by simp) = '\n' := by
          exact Option.some.inj h
        exact hfrag (h2 ▸ List.getLast_mem (by simp))
  | cons p rest ih =>
    intro fuel acc frag hfuel hnl hfrag
    cases fuel with
    | zero => omega
    | succ f =>
      obtain ⟨n, v⟩ := p
      have hstream : (((n, v) :: rest).map serializeHeaderLine).flatten ++ frag =
          serializeHeaderLine (n, v) ++
            ((rest.map serializeHeaderLine).flatten ++ frag) := by
        simp
      rw [hstream]
      have hg := hnl (n, v) (List.mem_cons_self _ _)
      obtain ⟨hs1, hstep⟩ := rha_trunc_step acc
        ((rest.map serializeHeaderLine).flatten ++ frag) hg.1 hg.2
      rw [hstep]
      exact ih f hs1 frag (by simp only [List.length_cons] at hfuel; omega)
        (fun q hq => hnl q (List.mem_cons_of_mem _ hq)) hfrag

theorem readHeaders_trunc (pre : List (Str × Str)) (frag : Str)
    (hnl : ∀ p ∈ pre, '\n' ∉ p.1 ∧ '\n' ∉ p.2)
    (hfrag : '\n' ∉ frag) :
    readHeaders ((pre.map serializeHeaderLine).flatten ++ frag) =
      .error .headerError := by
  unfold readHeaders
  apply rha_trunc pre _ [] frag _ hnl hfrag
  have := lines_len_ge pre
  simp only [List.length_append]
  omega

theorem apiHeaders_good (b : Str) :
    ∀ p ∈ apiHeaders b, goodName p.1 ∧ goodValue p.2 := by
  intro p hp
  simp only [apiHeaders, List.mem_cons, List.not_mem_nil, or_false] at hp
  rcases hp with h | h
  · subst h
    exact ⟨by decide, by decide⟩
  · subst h
    exact ⟨show goodName clKey by decide, goodValue_natDigits _⟩

theorem apiHeaders_nodup (b : Str) : ((apiHeaders b).map Prod.fst).Nodup := by
  have h : (apiHeaders b).map Prod.fst = [ctKey, clKey] := rfl
  rw [h]
  decide

theorem apiHeaders_cl (b : Str) :
    match alookup ("Content-Length".data) (apiHeaders b) with
    | some v => pyInt v = some (Int.ofNat b.length)
    | none => b = [] := by
  have h : alookup ("Content-Length".data) (apiHeaders b) =
      some (natDigits b.length) := rfl
  rw [h]
  exact pyInt_natDigits b.length

theorem readFrame_api (b rest : Str) :
    readFrame (mkApiFrame b ++ rest) = .ok (apiHeaders b, b, rest) :=
  readFrame_ser (apiHeaders b) b rest (apiHeaders_good b) (apiHeaders_nodup b)
    (apiHeaders_cl b)

theorem sendApi_frame (b rest : Str) :
    sendApi (mkApiFrame b ++ rest) = .ok (apiHeaders b, b, rest) := by
  unfold sendApi
  rw [readFrame_api b rest]
  rfl

theorem readFrame_stats (rest : Str) :
    readFrame (statsReplyFrame ++ rest) = .ok ([(ctKey, ctApi)], [], rest) := by
  have h := readFrame_ser [(ctKey, ctApi)] [] rest
    (by intro p hp
        simp only [List.mem_cons, List.not_mem_nil, or_false] at hp
        subst hp
        exact ⟨by decide, by decide⟩)
    (by decide) (by exact rfl)
  simpa [statsReplyFrame] using h

theorem sendApi_stats (rest : Str) :
    sendApi (statsReplyFrame ++ rest) = .ok ([(ctKey, ctApi)], [], rest) := by
  unfold sendApi
  rw [readFrame_stats rest]
  rfl

theorem except_bind_ok {ε α β : Type} (a : α) (f : α → Except ε β) :
    (Except.ok a >>= f) = f a := rfl

theorem except_bind_error {ε α β : Type} (e : ε) (f : α → Except ε β) :
    ((Except.error e : Except ε α) >>= f) = Except.error e := rfl

theorem rowsObsE_cons (rc : RowCase) (rest : List RowCase) :
    rowsObsE (rc :: rest) =
      (rowObsE rc >>= fun o => rowsObsE rest >>= fun os => pure (o ++ os)) := rfl

theorem chanLoop_sim :
    ∀ (cs : List RowCase) (acc : List Obs) (extra : Str) (l : List Obs),
      rowsObsE cs = .ok l →
      chanLoop (cs.map RowCase.row) ((cs.map rowFrames).flatten ++ extra) acc =
        .ok (acc ++ l, extra) := by
  intro cs
  induction cs with
  | nil =>
    intro acc extra l h
    have hl : l = [] := by
      simp only [rowsObsE] at h
      exact (Except.ok.inj h).symm
    subst hl
    simp [chanLoop]
  | cons rc rest ih =>
    intro acc extra l h
    rw [rowsObsE_cons] at h
    cases hrc : rowObsE rc with
    | error e =>
      rw [hrc, except_bind_error] at h
      simp at h
    | ok o =>
      rw [hrc, except_bind_ok] at h
      cases hrest : rowsObsE rest with
      | error e =>
        rw [hrest, except_bind_error] at h
        simp at h
      | ok os =>
        rw [hrest, except_bind_ok] at h
        have hl : l = o ++ os := by
          simpa using (Except.ok.inj h).symm
        subst hl
        have hstream : ((rowFrames rc :: rest.map rowFrames).flatten ++ extra) =
            statsReplyFrame ++ (mkApiFrame rc.dump ++
              ((rest.map rowFrames).flatten ++ extra)) := by
          simp [rowFrames]
        unfold rowObsE at hrc
        cases hu : getItemJ rc.row uuidKey with
        | error e =>
          rw [hu, except_bind_error] at hrc
          simp at hrc
        | ok uuid =>
          rw [hu, except_bind_ok] at hrc
          simp only [List.map_cons]
          rw [hstream]
          unfold chanLoop
          rw [hu]
          simp only [except_bind_ok]
          rw [sendApi_stats]
          simp only [except_bind_ok]
          rw [sendApi_frame]
          simp only [except_bind_ok]
          by_cases herr : pyStartsWith errMark rc.dump = true
          · rw [if_pos herr] at hrc ⊢
            have ho : o = [] := by
              simpa using (Except.ok.inj hrc).symm
            subst ho
            rw [ih acc extra os hrest]
            simp
          · rw [if_neg herr] at hrc ⊢
            cases hcv : jsonLoads rc.dump with
            | error e =>
              rw [hcv, except_bind_error] at hrc
              simp at hrc
            | ok cv =>
              rw [hcv, except_bind_ok] at hrc
              cases hvars : asObj cv with
              | error e =>
                rw [hvars, except_bind_error] at hrc
                simp at hrc
              | ok vars =>
                rw [hvars, except_bind_ok] at hrc
                cases hobs : varsObs uuid vars with
                | error e =>
                  rw [hobs, except_bind_error] at hrc
                  simp at hrc
                | ok obs =>
                  rw [hobs, except_bind_ok] at hrc
                  cases hnm : getItemJ rc.row nameKey with
                  | error e =>
                    rw [hnm, except_bind_error] at hrc
                    simp at hrc
                  | ok nm =>
                    rw [hnm, except_bind_ok] at hrc
                    have ho : o = obs ++
                        [⟨infoFam, [uuid, nm, (alookup uaKey vars).getD (Json.jstr unknownVal)],
                          PVal.j (Json.jnum 1)⟩] := by
                      simpa using (Except.ok.inj hrc).symm
                    subst ho
                    simp only [except_bind_ok]
                    rw [hvars]
                    simp only [except_bind_ok]
                    rw [hobs]
                    simp only [except_bind_ok]
                    rw [ih _ extra os hrest]
                    simp

theorem chanCollect_sim (lb : Str) (lj : Json) (cs : List RowCase) (l : List Obs)
    (hl : jsonLoads lb = .ok lj)
    (hr : pyGetD lj rowsKey (Json.jarr []) = .ok (Json.jarr (cs.map RowCase.row)))
    (hobs : rowsObsE cs = .ok l) :
    chanCollect (mkChanStream lb cs) = .ok (l, []) := by
  unfold chanCollect mkChanStream
  rw [sendApi_frame]
  simp only [except_bind_ok]
  rw [hl]
  simp only [except_bind_ok]
  rw [hr]
  simp only [except_bind_ok]
  rw [show pyIter (Json.jarr (cs.map RowCase.row)) = .ok (cs.map RowCase.row) from rfl]
  simp only [except_bind_ok]
  have h2 := chanLoop_sim cs [] [] l hobs
  rw [List.append_nil] at h2
  rw [h2]
  simp

theorem alookup_mem {α β : Type} [DecidableEq α] {k : α} {v : β} :
    ∀ {l : List (α × β)}, alookup k l = some v → v ∈ l.map Prod.snd := by
  intro l h
  induction l with
  | nil => cases h
  | cons p r ih =>
    obtain ⟨k', v'⟩ := p
    unfold alookup at h
    by_cases hk : k' = k
    · rw [if_pos hk] at h
      simp [Option.some.inj h]
    · rw [if_neg hk] at h
      simp [ih h]

theorem varStep_not_info {uuid : Json} {kv : Str × Json} {l : List Obs}
    (h : varStep uuid kv = .ok l) : ∀ o ∈ l, o.fam ≠ infoFam := by
  unfold varStep at h
  cases hmv : (if kv.1 ∈ msKeys then do
      let q ← pyFloat kv.2
      pure (PVal.f (q / 1000))
    else pure (PVal.j kv.2) : Except PyErr PVal) with
  | error e =>
    rw [hmv, except_bind_error] at h
    simp at h
  | ok mv =>
    rw [hmv, except_bind_ok] at h
    cases halk : alookup kv.1 chanCatalog with
    | none =>
      rw [halk] at h
      have hl : l = [] := by simpa using (Except.ok.inj h).symm
      subst hl
      simp
    | some famName =>
      rw [halk] at h
      have hl : l = [⟨famName, [uuid], mv⟩] := by
        simpa using (Except.ok.inj h).symm
      subst hl
      intro o ho
      have hoe : o = ⟨famName, [uuid], mv⟩ := by simpa using ho
      subst hoe
      intro hfam
      have hmem : famName ∈ chanCatalog.map Prod.snd := alookup_mem halk
      have hf2 : famName = infoFam := hfam
      rw [hf2] at hmem
      exact absurd hmem (by decide)

theorem varsObs_not_info {uuid : Json} :
    ∀ {vars : List (Str × Json)} {l : List Obs},
      varsObs uuid vars = .ok l → ∀ o ∈ l, o.fam ≠ infoFam := by
  intro vars
  induction vars with
  | nil =>
    intro l h
    have hl : l = [] := by
      simp only [varsObs] at h
      exact (Except.ok.inj h).symm
    subst hl
    simp
  | cons kv rest ih =>
    intro l h
    simp only [varsObs] at h
    cases hst : varStep uuid kv with
    | error e =>
      rw [hst, except_bind_error] at h
      simp at h
    | ok o1 =>
      rw [hst, except_bind_ok] at h
      cases hrs : varsObs uuid rest with
      | error e =>
        rw [hrs, except_bind_error] at h
        simp at h
      | ok os =>
        rw [hrs, except_bind_ok] at h
        have hl : l = o1 ++ os := by simpa using (Except.ok.inj h).symm
        subst hl
        intro o ho
        rcases List.mem_append.mp ho with h1 | h2
        · exact varStep_not_info hst o h1
        · exact ih hrs o h2

theorem countInfo_append (a b : List Obs) :
    countInfo (a ++ b) = countInfo a + countInfo b := by
  simp [countInfo, List.filter_append]

theorem countInfo_nil_of_not_info {l : List Obs}
    (h : ∀ o ∈ l, o.fam ≠ infoFam) : countInfo l = 0 := by
  simp only [countInfo, List.length_eq_zero]
  rw [List.filter_eq_nil_iff]
  intro o ho
  simp only [beq_iff_eq]
  exact h o ho

theorem rowObsE_countInfo {rc : RowCase} {o : List Obs}
    (h : rowObsE rc = .ok o) :
    countInfo o = if isErrRow rc then 0 else 1 := by
  unfold rowObsE at h
  cases hu : getItemJ rc.row uuidKey with
  | error e =>
    rw [hu, except_bind_error] at h
    simp at h
  | ok uuid =>
    rw [hu, except_bind_ok] at h
    by_cases herr : pyStartsWith errMark rc.dump = true
    · rw [if_pos herr] at h
      have ho : o = [] := by simpa using (Except.ok.inj h).symm
      subst ho
      rw [if_pos (by simpa [isErrRow] using herr)]
      simp [countInfo]
    · rw [if_neg herr] at h
      rw [if_neg (by simpa [isErrRow] using herr)]
      cases hcv : jsonLoads rc.dump with
      | error e =>
        rw [hcv, except_bind_error] at h
        simp at h
      | ok cv =>
        rw [hcv, except_bind_ok] at h
        cases hvars : asObj cv with
        | error e =>
          rw [hvars, except_bind_error] at h
          simp at h
        | ok vars =>
          rw [hvars, except_bind_ok] at h
          cases hobs : varsObs uuid vars with
          | error e =>
            rw [hobs, except_bind_error] at h
            simp at h
          | ok obs =>
            rw [hobs, except_bind_ok] at h
            cases hnm : getItemJ rc.row nameKey with
            | error e =>
              rw [hnm, except_bind_error] at h
              simp at h
            | ok nm =>
              rw [hnm, except_bind_ok] at h
              have ho : o = obs ++
                  [⟨infoFam, [uuid, nm, (alookup uaKey vars).getD (Json.jstr unknownVal)],
                    PVal.j (Json.jnum 1)⟩] := by
                simpa using (Except.ok.inj h).symm
              subst ho
              rw [countInfo_append,
                countInfo_nil_of_not_info (varsObs_not_info hobs)]
              simp [countInfo]

theorem rowsObsE_countInfo :
    ∀ {cs : List RowCase} {l : List Obs}, rowsObsE cs = .ok l →
      countInfo l = (cs.filter (fun rc => !isErrRow rc)).length := by
  intro cs
  induction cs with
  | nil =>
    intro l h
    have hl : l = [] := by
      simp only [rowsObsE] at h
      exact (Except.ok.inj h).symm
    subst hl
    simp [countInfo]
  | cons rc rest ih =>
    intro l h
    rw [rowsObsE_cons] at h
    cases hrc : rowObsE rc with
    | error e =>
      rw [hrc, except_bind_error] at h
      simp at h
    | ok o =>
      rw [hrc, except_bind_ok] at h
      cases hrest : rowsObsE rest with
      | error e =>
        rw [hrest, except_bind_error] at h
        simp at h
      | ok os =>
        rw [hrest, except_bind_ok] at h
        have hl : l = o ++ os := by simpa using (Except.ok.inj h).symm
        subst hl
        rw [countInfo_append, rowObsE_countInfo hrc, ih hrest]
        by_cases he : isErrRow rc = true
        · rw [if_pos he, List.filter_cons, if_neg (by simp [he])]
          omega
        · rw [if_neg he, List.filter_cons,
            if_pos (by simp at he; simp [he])]
          simp
          omega

theorem length_filter_split (p : RowCase → Bool) :
    ∀ cs : List RowCase,
      (cs.filter p).length + (cs.filter (fun x => !p x)).length = cs.length := by
  intro cs
  induction cs with
  | nil => simp
  | cons rc rest ih =>
    by_cases hp : p rc = true
    · rw [List.filter_cons, List.filter_cons, if_pos (by simp [hp]),
        if_neg (by simp [hp])]
      simp only [List.length_cons]
      omega
    · rw [List.filter_cons, List.filter_cons, if_neg (by simp [hp]),
        if_pos (by simp at hp; simp [hp])]
      simp only [List.length_cons]
      omega

theorem rowObsE_err_nil {rc : RowCase} {o : List Obs}
    (h : rowObsE rc = .ok o) (he : isErrRow rc = true) : o = [] := by
  unfold rowObsE at h
  cases hu : getItemJ rc.row uuidKey with
  | error e =>
    rw [hu, except_bind_error] at h
    simp at h
  | ok uuid =>
    rw [hu, except_bind_ok] at h
    rw [if_pos (by simpa [isErrRow] using he)] at h
    simpa using (Except.ok.inj h).symm

theorem rowsObsE_mem_ok :
    ∀ {cs : List RowCase} {l : List Obs}, rowsObsE cs = .ok l →
      ∀ rc ∈ cs, ∃ o, rowObsE rc = .ok o := by
  intro cs
  induction cs with
  | nil =>
    intro l _ rc hrc
    cases hrc
  | cons rc0 rest ih =>
    intro l h rc hrc
    rw [rowsObsE_cons] at h
    cases hrc0 : rowObsE rc0 with
    | error e =>
      rw [hrc0, except_bind_error] at h
      simp at h
    | ok o =>
      rw [hrc0, except_bind_ok] at h
      cases hrest : rowsObsE rest with
      | error e =>
        rw [hrest, except_bind_error] at h
        simp at h
      | ok os =>
        rcases List.mem_cons.mp hrc with h1 | h2
        · exact ⟨o, h1 ▸ hrc0⟩
        · exact ih hrest rc h2

theorem processInfo_empty (b extra : Str) (lj : Json)
    (hl : jsonLoads b = .ok lj)
    (hresp : pyGetD lj respKey (Json.jobj []) = .ok (Json.jobj [])) :
    processInfo (mkApiFrame b ++ extra) = .ok (pmEmpty, extra) := by
  unfold processInfo
  rw [sendApi_frame]
  simp only [except_bind_ok]
  rw [hl]
  simp only [except_bind_ok]
  rw [hresp]
  simp only [except_bind_ok]
  rfl

theorem sofiaLoop_sim (ps : Str → Except PyErr SofiaStatus) :
    ∀ (names bodies : List Str) (sts : List SofiaStatus) (acc : List SEntry)
      (extra : Str),
      names.length = bodies.length →
      List.Forall₂ (fun b st => ps b = .ok st) bodies sts →
      sofiaLoop ps names ((bodies.map mkApiFrame).flatten ++ extra) acc =
        .ok (acc ++ (sts.map fieldsOf).flatten, extra) := by
  intro names
  induction names with
  | nil =>
    intro bodies sts acc extra hlen hf
    have hb : bodies = [] := by
      cases bodies with
      | nil => rfl
      | cons b bs => simp at hlen
    subst hb
    cases hf
    simp [sofiaLoop]
  | cons nm rest ih =>
    intro bodies sts acc extra hlen hf
    cases bodies with
    | nil => simp at hlen
    | cons b bs =>
      cases hf with
      | cons hps hf2 =>
        rename_i st sts2
        have hstream : (((b :: bs).map mkApiFrame).flatten ++ extra) =
            mkApiFrame b ++ ((bs.map mkApiFrame).flatten ++ extra) := by
          simp
        unfold sofiaLoop
        rw [hstream, sendApi_frame]
        simp only [except_bind_ok]
        rw [hps]
        simp only [except_bind_ok]
        rw [ih bs sts2 (acc ++ fieldsOf st) extra
          (by simp only [List.length_cons] at hlen; omega) hf2]
        simp

theorem sofiaCollect_sim (pp : Str → Except PyErr (List Str))
    (ps : Str → Except PyErr SofiaStatus) (lb : Str) (names bodies : List Str)
    (sts : List SofiaStatus)
    (hpp : pp lb = .ok names)
    (hlen : names.length = bodies.length)
    (hf : List.Forall₂ (fun b st => ps b = .ok st) bodies sts) :
    sofiaCollect pp ps (mkSofiaStream lb bodies) =
      .ok ((sts.map fieldsOf).flatten, []) := by
  unfold sofiaCollect mkSofiaStream
  rw [sendApi_frame]
  simp only [except_bind_ok]
  rw [hpp]
  simp only [except_bind_ok]
  have h2 := sofiaLoop_sim ps names bodies sts [] [] hlen hf
  rw [List.append_nil] at h2
  rw [h2]
  simp


theorem getHdr_some {hs : Headers} {k v : Str} (h : alookup k hs = some v) :
    getHdr hs k = .ok v := by
  unfold getHdr
  rw [h]

theorem getHdr_none {hs : Headers} {k : Str} (h : alookup k hs = none) :
    getHdr hs k = .error .keyError := by
  unfold getHdr
  rw [h]

theorem except_pure_ok {ε α : Type} (a : α) :
    (pure a : Except ε α) = Except.ok a := rfl

theorem loginHandle_ct_missing {hs : Headers} {body : Str}
    (hct : alookup ctKey hs = none) :
    loginHandle hs body = .error .keyError := by
  unfold loginHandle
  rw [getHdr_none hct]
  rfl

theorem loginHandle_accepted {hs : Headers} {body : Str}
    (hct : alookup ctKey hs = some ctCmdReply)
    (hrt : alookup rtKey hs = some rtAccepted) :
    loginHandle hs body = .ok true := by
  unfold loginHandle
  rw [getHdr_some hct, getHdr_some hrt]
  rfl

theorem loginHandle_wrong_reply {hs : Headers} {body : Str} {rt : Str}
    (hct : alookup ctKey hs = some ctCmdReply)
    (hrt : alookup rtKey hs = some rt) (hacc : ¬rt = rtAccepted) :
    loginHandle hs body = .error .protocolError := by
  unfold loginHandle
  rw [getHdr_some hct, getHdr_some hrt]
  simp only [except_bind_ok, except_pure_ok, if_true]
  rw [decide_eq_false hacc]
  rfl

theorem loginHandle_no_reply {hs : Headers} {body : Str}
    (hct : alookup ctKey hs = some ctCmdReply)
    (hrt : alookup rtKey hs = none) :
    loginHandle hs body = .error .keyError := by
  unfold loginHandle
  rw [getHdr_some hct, getHdr_none hrt]
  rfl

theorem loginHandle_reject {hs : Headers} {body : Str}
    (hct : alookup ctKey hs = some ctReject) :
    loginHandle hs body = .ok false := by
  unfold loginHandle
  rw [getHdr_some hct]
  rfl

theorem loginHandle_other {hs : Headers} {body : Str} {ct : Str}
    (hct : alookup ctKey hs = some ct) (hcr : ¬ct = ctCmdReply)
    (hrej : ¬ct = ctReject) :
    loginHandle hs body = .error .protocolError := by
  unfold loginHandle
  rw [getHdr_some hct]
  simp only [except_bind_ok]
  rw [if_neg hcr]
  simp only [except_pure_ok, except_bind_ok]
  rw [if_neg (by decide), if_neg hrej]

theorem fieldsOf_map_fst (st : SofiaStatus) :
    (fieldsOf st).map Prod.fst = sofiaFamNames := rfl

theorem sofia_flatten_fst :
    ∀ sts : List SofiaStatus,
      ((sts.map fieldsOf).flatten).map Prod.fst =
        (List.replicate sts.length sofiaFamNames).flatten := by
  intro sts
  induction sts with
  | nil => rfl
  | cons st rest ih =>
    simp only [List.map_cons, List.flatten_cons, List.map_append, ih,
      List.length_cons, List.replicate_succ, fieldsOf_map_fst]

theorem count_flatten_replicate (f : String) :
    ∀ n : Nat, ((List.replicate n sofiaFamNames).flatten).count f =
      n * sofiaFamNames.count f := by
  intro n
  induction n with
  | zero => simp
  | succ m ih =>
    rw [List.replicate_succ, List.flatten_cons, List.count_append, ih]
    ring

theorem sofia_flatten_length :
    ∀ sts : List SofiaStatus, ((sts.map fieldsOf).flatten).length = 8 * sts.length := by
  intro sts
  induction sts with
  | nil => rfl
  | cons st rest ih =>
    simp only [List.map_cons, List.flatten_cons, List.length_append, ih,
      List.length_cons]
    have h : (fieldsOf st).length = 8 := rfl
    rw [h]
    ring

/-! ### Claims -/

/-- Claim C1, code-bug evidence: on a stream whose auth response is a
rude rejection, ESL.login returns false, yet the scrape of
ChannelCollector continues past it and succeeds with metrics, because
the collector discards the boolean result of login; the claim that a
rejected login aborts the scrape with an authentication error before
any sub-collector runs is contradicted by the source. -/
theorem c1_login_result_ignored :
    eslInit c1Stream = .ok c1s1 ∧
    eslLogin c1s1 = .ok (false, c1s2) ∧
    isOkE (scrape ppNil psNil c1Stream).1 = true := by
  set_option maxRecDepth 40000 in
  exact ⟨by rfl, by rfl, by rfl⟩

/-- Claim C2, counterexample: ESLHeaderError is not a subclass of
ESLProtocolError in esl.py (both derive directly from ESLError), so an
except clause naming ESLProtocolError does not catch ESLHeaderError. -/
theorem c2_header_not_subclass_of_protocol :
    isSubclass ExcClass.eslHeaderError ExcClass.eslProtocolError = false ∧
    catches ExcClass.eslProtocolError ExcClass.eslHeaderError = false := by
  decide

/-- Claim C2, amended: ESLHeaderError is a distinguished subtype of the
common base ESLError, as is ESLProtocolError; a handler catching
ESLError catches ESLHeaderError, but one catching only ESLProtocolError
does not. -/
theorem c2_header_subclass_of_base :
    isSubclass ExcClass.eslHeaderError ExcClass.eslError = true ∧
    catches ExcClass.eslError ExcClass.eslHeaderError = true ∧
    isSubclass ExcClass.eslProtocolError ExcClass.eslError = true ∧
    isSubclass ExcClass.eslHeaderError ExcClass.eslProtocolError = false := by
  decide

/-- Claim C3, counterexample: on a listing whose single row lacks the
uuid key, ESLChannelInfo.collect raises KeyError instead of skipping
the row; the scrape aborts rather than continuing. -/
theorem c3_missing_uuid_aborts :
    chanCollect c3Stream = .error .keyError := by rfl

/-- Claim C3, amended: a listing row lacking the uuid key makes
ESLChannelInfo.collect raise a KeyError that aborts the whole scrape,
whatever the rest of the stream holds; rows are only ever skipped by
the error-marker check on the dump body. -/
theorem c3_missing_uuid_keyerror (lb : Str) (lj : Json)
    (m : List (Str × Json)) (rest : List Json) (tail : Str)
    (hl : jsonLoads lb = .ok lj)
    (hr : pyGetD lj rowsKey (Json.jarr []) = .ok (Json.jarr (Json.jobj m :: rest)))
    (hm : alookup uuidKey m = none) :
    chanCollect (mkApiFrame lb ++ tail) = .error .keyError := by
  unfold chanCollect
  rw [sendApi_frame]
  simp only [except_bind_ok]
  rw [hl]
  simp only [except_bind_ok]
  rw [hr]
  simp only [except_bind_ok]
  rw [show pyIter (Json.jarr (Json.jobj m :: rest)) = .ok (Json.jobj m :: rest) from rfl]
  simp only [except_bind_ok]
  unfold chanLoop
  rw [show getItemJ (Json.jobj m) uuidKey = .error .keyError by
    simp only [getItemJ, hm]]
  rfl

/-- Witness for the amended claim C3 at a concrete one-row listing. -/
theorem c3_missing_uuid_keyerror_witness :
    chanCollect (mkApiFrame lbBad ++ []) = .error .keyError :=
  c3_missing_uuid_keyerror lbBad (Json.jobj [(rowsKey, Json.jarr [Json.jobj []])])
    [] [] [] (by rfl) (by rfl) (by rfl)

/-- Claim C4: for a listing of N rows in which exactly one row answers
its channel dump with an error body, the channel collector returns the
observations of the other rows only, with exactly N-1 channel-info
observations, the error row contributing no observation of any kind,
and no exception. -/
theorem c4_error_row_skipped (lb : Str) (lj : Json) (cs : List RowCase)
    (l : List Obs)
    (hl : jsonLoads lb = .ok lj)
    (hr : pyGetD lj rowsKey (Json.jarr []) = .ok (Json.jarr (cs.map RowCase.row)))
    (hobs : rowsObsE cs = .ok l)
    (herr : (cs.filter isErrRow).length = 1) :
    chanCollect (mkChanStream lb cs) = .ok (l, []) ∧
    countInfo l = cs.length - 1 ∧
    (∀ rc ∈ cs, isErrRow rc = true → rowObsE rc = .ok []) := by
  refine ⟨chanCollect_sim lb lj cs l hl hr hobs, ?_, ?_⟩
  · rw [rowsObsE_countInfo hobs]
    have h1 := length_filter_split isErrRow cs
    omega
  · intro rc hrc he
    obtain ⟨o, ho⟩ := rowsObsE_mem_ok hobs rc hrc
    rw [ho, rowObsE_err_nil ho he]

/-- Witness for claim C4: two rows, the second answered by an error
body; one channel-info observation results. -/
theorem c4_error_row_skipped_witness :
    chanCollect (mkChanStream lb0 cases0) = .ok (cases0Obs, []) ∧
    countInfo cases0Obs = cases0.length - 1 ∧
    (∀ rc ∈ cases0, isErrRow rc = true → rowObsE rc = .ok []) :=
  c4_error_row_skipped lb0 (Json.jobj [(rowsKey, Json.jarr [row1, row2])])
    cases0 cases0Obs (by rfl) (by rfl) (by rfl) (by rfl)

/-- Claim C5: login returns true exactly when the response frame has
Content-Type command/reply and Reply-Text equal to the accepted
literal; it returns false without raising when the Content-Type is the
rejection type; and it raises ESLProtocolError on any other content
type. -/
theorem c5_login_branches (s : Str) (hs : Headers) (body rest : Str)
    (hframe : readFrame s = .ok (hs, body, rest)) :
    (eslLogin s = .ok (true, rest) ↔
      alookup ctKey hs = some ctCmdReply ∧ alookup rtKey hs = some rtAccepted) ∧
    (alookup ctKey hs = some ctReject → eslLogin s = .ok (false, rest)) ∧
    (∀ ct, alookup ctKey hs = some ct → ct ≠ ctCmdReply → ct ≠ ctReject →
      eslLogin s = .error .protocolError) := by
  have hES : eslLogin s = (loginHandle hs body >>= fun b => Except.ok (b, rest)) := by
    unfold eslLogin
    rw [hframe]
    simp only [except_bind_ok]
  refine ⟨⟨?_, ?_⟩, ?_, ?_⟩
  · intro h
    rw [hES] at h
    cases hct : alookup ctKey hs with
    | none =>
      rw [loginHandle_ct_missing hct, except_bind_error] at h
      simp at h
    | some ct =>
      by_cases hcr : ct = ctCmdReply
      · subst hcr
        cases hrt : alookup rtKey hs with
        | none =>
          rw [loginHandle_no_reply hct hrt, except_bind_error] at h
          simp at h
        | some rt =>
          by_cases hacc : rt = rtAccepted
          · subst hacc
            exact ⟨rfl, rfl⟩
          · rw [loginHandle_wrong_reply hct hrt hacc, except_bind_error] at h
            simp at h
      · by_cases hrej : ct = ctReject
        · subst hrej
          rw [loginHandle_reject hct, except_bind_ok] at h
          simp at h
        · rw [loginHandle_other hct hcr hrej, except_bind_error] at h
          simp at h
  · rintro ⟨h1, h2⟩
    rw [hES, loginHandle_accepted h1 h2]
    rfl
  · intro h
    rw [hES, loginHandle_reject h]
    rfl
  · intro ct hct hne1 hne2
    rw [hES, loginHandle_other hct hne1 hne2]
    rfl

/-- Witness for claim C5 at a concrete rejection frame: login returns
false without raising. -/
theorem c5_login_branches_witness :
    eslLogin c5Stream = .ok (false, []) :=
  (c5_login_branches c5Stream [(ctKey, ctReject), (clKey, "6".data)]
    ("denied".data) [] (by rfl)).2.1 (by rfl)

/-- Claim C6, counterexample: with an empty status response object the
process-info collector raises no exception, but the readiness and
stack-memory families are returned with no samples at all, not with a
zero-valued sample as the claim demands. -/
theorem c6_empty_response_not_zero_valued :
    processInfo c6Stream = .ok (pmEmpty, []) ∧
    pmEmpty.up = [] ∧ pmEmpty.mem = [] ∧
    pmEmpty.up ≠ [(([] : List Json), Json.jnum 0)] ∧
    pmEmpty.mem ≠ [(([] : List Json), Json.jnum 0)] :=
  ⟨by rfl, rfl, rfl, by simp [pmEmpty], by simp [pmEmpty]⟩

/-- Claim C6, amended: when the status response object is empty or
absent, the collector raises no exception and yields the info,
readiness and stack-memory families each with no samples, and no
session metrics; a missing top-level key produces no observation
rather than a zero-valued one. -/
theorem c6_empty_response_no_samples (b extra : Str) (lj : Json)
    (hl : jsonLoads b = .ok lj)
    (hresp : pyGetD lj respKey (Json.jobj []) = .ok (Json.jobj [])) :
    processInfo (mkApiFrame b ++ extra) = .ok (pmEmpty, extra) :=
  processInfo_empty b extra lj hl hresp

/-- Witness for the amended claim C6 at an empty JSON body. -/
theorem c6_empty_response_no_samples_witness :
    processInfo (mkApiFrame ("\x7b\x7d".data) ++ []) = .ok (pmEmpty, []) :=
  c6_empty_response_no_samples ("\x7b\x7d".data) [] (Json.jobj [])
    (by rfl) (by rfl)

/-- Claim C7: every well-formed frame, serialised as header lines
terminated by a blank line and followed by exactly Content-Length body
bytes, is read back as exactly its header mapping (names and values
trimmed, split on the first colon) and its body byte for byte, with
the body present only when Content-Length is declared and of exactly
that length. -/
theorem c7_frame_roundtrip (hs : List (Str × Str)) (body extra : Str)
    (hgood : ∀ p ∈ hs, goodName p.1 ∧ goodValue p.2)
    (hnodup : (hs.map Prod.fst).Nodup)
    (hcl : match alookup ("Content-Length".data) hs with
           | some v => pyInt v = some (Int.ofNat body.length)
           | none => body = []) :
    readFrame (serializeFrame hs body ++ extra) = .ok (hs, body, extra) :=
  readFrame_ser hs body extra hgood hnodup hcl

/-- Witness for claim C7: a frame with a declared seven-byte body that
contains an embedded blank line round-trips byte for byte. -/
theorem c7_frame_roundtrip_witness :
    readFrame (serializeFrame hs7 body7 ++ ("XYZ".data)) =
      .ok (hs7, body7, "XYZ".data) :=
  c7_frame_roundtrip hs7 body7 ("XYZ".data) (by decide) (by decide)
    (show pyInt ("7".data) = some (Int.ofNat body7.length) by decide)

/-- Claim C8: any stream that ends while header lines are still
expected, whether cut between complete header lines or after a final
line missing its terminator, makes the frame reader fail with
ESLHeaderError; it never returns a partial header mapping. -/
theorem c8_truncated_header_error (pre : List (Str × Str)) (frag : Str)
    (hnl : ∀ p ∈ pre, '\n' ∉ p.1 ∧ '\n' ∉ p.2)
    (hfrag : '\n' ∉ frag) :
    readHeaders ((pre.map serializeHeaderLine).flatten ++ frag) =
      .error .headerError :=
  readHeaders_trunc pre frag hnl hfrag

/-- Witness for claim C8: one complete header line followed by a
fragment without a newline fails with the header error. -/
theorem c8_truncated_header_error_witness :
    readHeaders ((pre8.map serializeHeaderLine).flatten ++ frag8) =
      .error .headerError :=
  c8_truncated_header_error pre8 frag8 (by decide) (by decide)

/-- Claim C9: whatever the stream holds and however the sub-collectors
fare, the scrape of ChannelCollector leaves the connection closed on
every exit path, successful or raising, because the close sits in the
finally block. -/
theorem c9_connection_always_closed (pp : Str → Except PyErr (List Str))
    (ps : Str → Except PyErr SofiaStatus) (s : Str) :
    (scrape pp ps s).2 = true := by
  unfold scrape
  cases scrapeBody pp ps s <;> rfl

/-- Claim C10: for a profile listing of P profiles the sofia collector
returns 8*P gauge entries in which each of the eight families appears
exactly P times, the same family object being appended once per
profile; with no profiles the returned sequence is empty. -/
theorem c10_sofia_gauges_per_profile (pp : Str → Except PyErr (List Str))
    (ps : Str → Except PyErr SofiaStatus) (lb : Str)
    (names bodies : List Str) (sts : List SofiaStatus)
    (hpp : pp lb = .ok names)
    (hlen : names.length = bodies.length)
    (hf : List.Forall₂ (fun b st => ps b = .ok st) bodies sts) :
    sofiaCollect pp ps (mkSofiaStream lb bodies) =
      .ok ((sts.map fieldsOf).flatten, []) ∧
    ((sts.map fieldsOf).flatten).length = 8 * names.length ∧
    (∀ f ∈ sofiaFamNames,
      (((sts.map fieldsOf).flatten).map Prod.fst).count f = names.length) ∧
    (names = [] → (sts.map fieldsOf).flatten = []) := by
  have hlen2 : sts.length = names.length := by
    rw [hlen]
    exact (List.Forall₂.length_eq hf).symm
  refine ⟨sofiaCollect_sim pp ps lb names bodies sts hpp hlen hf, ?_, ?_, ?_⟩
  · rw [sofia_flatten_length, hlen2]
  · intro f hf2
    rw [sofia_flatten_fst, count_flatten_replicate, hlen2]
    have h1 : sofiaFamNames.count f = 1 := by
      fin_cases hf2 <;> rfl
    rw [h1, Nat.mul_one]
  · intro hn
    have hs0 : sts = [] := by
      rw [← List.length_eq_zero, hlen2, hn]
      rfl
    rw [hs0]
    rfl

/-- Witness for claim C10 with two profiles: sixteen entries, each
family twice. -/
theorem c10_sofia_gauges_per_profile_witness :
    sofiaCollect ppTwo psOk (mkSofiaStream sofiaLB sofiaBodies) =
      .ok ((sofiaSts.map fieldsOf).flatten, []) ∧
    ((sofiaSts.map fieldsOf).flatten).length = 8 * 2 ∧
    (∀ f ∈ sofiaFamNames,
      (((sofiaSts.map fieldsOf).flatten).map Prod.fst).count f = 2) ∧
    ((["internal".data, "external".data] : List Str) = [] →
      (sofiaSts.map fieldsOf).flatten = []) := by
  have h := c10_sofia_gauges_per_profile ppTwo psOk sofiaLB
    ["internal".data, "external".data] sofiaBodies sofiaSts (by rfl) (by rfl)
    (List.Forall₂.cons (by rfl) (List.Forall₂.cons (by rfl) List.Forall₂.nil))
  exact h
